import Mathlib

/-!
Verification of `types/persistentvolume.go` (koki/short).

A shallow embedding of the persistent-volume codec: the access-mode list codec
(`AccessModes.ToString` / `AccessModes.InitFromString`), the secret-reference
codec (`SecretReference.MarshalJSON` / `SecretReference.UnmarshalJSON`) and the
flat-object encoder/decoder of `PersistentVolume`.

Conventions of the embedding.

* A Go `string` that is valid UTF-8 is a Lean `String`.  All separators the code
  looks for (`,`, `:` and the line feed) are ASCII, so splitting a valid UTF-8
  string by bytes and by characters agree.  The fields of `SecretReference`,
  which `MarshalJSON` hands to `json.Marshal` as the caller left them, are kept
  as bytes (`GoString`), valid UTF-8 or not.
* A Go method with a pointer receiver that mutates the receiver is a function
  from the old receiver to the new receiver paired with the returned error
  (`Option Error`: `none` is Go's `nil` error).
* A Go function returning `(value, error)` returns the pair, exactly as written.
* `[]byte` holding JSON text is represented by the JSON value it denotes
  (type `JSON`); serialising and re-parsing by `encoding/json` is the identity
  on such values.
* A slice is the list of its elements and a map the list of its entries; a nil
  slice or map is the empty list, except where the code's output tells nil from
  empty (`RBDPersistentVolume.CephMonitors`).  A pointer is an `Option`.
* Types, constants and functions that `persistentvolume.go` uses and other
  files declare are collected in the structure `Env`, over which the
  definitions that need them are parameterised.
-/

set_option autoImplicit false

/-! ## Errors (package `util`) -/

/-- The error values the code returns.  `InvalidInstance`, `InvalidValue` and
`InvalidValueForType` are built by the constructors of the same names in
package `util` and carry the formatted message (for `util.InvalidInstanceError`
the offending value); `Contextualized` is `util.ContextualizeErrorf` around an
inner error; `Json` is an error reported by `encoding/json` itself and
`Marshaler` is `json.MarshalerError` around the error of a `MarshalJSON`
method. -/
inductive Error where
  | InvalidInstance (msg : String)
  | InvalidValue (msg : String)
  | InvalidValueForType (msg : String)
  | Contextualized (inner : Error) (msg : String)
  | Json (msg : String)
  | Marshaler (inner : Error)
  deriving DecidableEq, Repr

/-- Go `err.Error()`: the message of an error.  The decoration package `util`
puts around a message is not reproduced; a wrapping error shows its context
followed by the message of the error it wraps. -/
def Error.Message : Error → String
  | Error.InvalidInstance msg => msg
  | Error.InvalidValue msg => msg
  | Error.InvalidValueForType msg => msg
  | Error.Contextualized inner msg => msg ++ ": " ++ inner.Message
  | Error.Json msg => msg
  | Error.Marshaler inner => "json: error calling MarshalJSON: " ++ inner.Message

/-! ## Package `strings` -/

namespace strings

/-- Splitting a character sequence at every occurrence of `sep`.  The result is
never empty: a sequence without `sep` (the empty one included) gives one piece. -/
def splitChars (sep : Char) : List Char → List (List Char)
  | [] => [[]]
  | c :: cs =>
    if c = sep then [] :: splitChars sep cs
    else
      match splitChars sep cs with
      | [] => [[c]]
      | p :: ps => (c :: p) :: ps

/-- Go `strings.Split(s, sep)` for a one-character separator. -/
def Split (s : String) (sep : Char) : List String :=
  (splitChars sep s.data).map String.mk

/-- Concatenation of character sequences with `sep` between neighbours. -/
def joinChars (sep : List Char) : List (List Char) → List Char
  | [] => []
  | [p] => p
  | p :: q :: ps => p ++ sep ++ joinChars sep (q :: ps)

/-- Go `strings.Join(elems, sep)`. -/
def Join (elems : List String) (sep : String) : String :=
  String.mk (joinChars sep.data (elems.map String.data))

end strings

/-! ## Access modes -/

/-- Go `v1.PersistentVolumeAccessMode`, a named string type. -/
abbrev PersistentVolumeAccessMode := String

namespace v1

/-- Kubernetes constant `v1.ReadWriteOnce`. -/
def ReadWriteOnce : PersistentVolumeAccessMode := "ReadWriteOnce"
/-- Kubernetes constant `v1.ReadOnlyMany`. -/
def ReadOnlyMany : PersistentVolumeAccessMode := "ReadOnlyMany"
/-- Kubernetes constant `v1.ReadWriteMany`. -/
def ReadWriteMany : PersistentVolumeAccessMode := "ReadWriteMany"

end v1

/-- Go `type AccessModes struct { Modes []v1.PersistentVolumeAccessMode }`. -/
structure AccessModes where
  Modes : List PersistentVolumeAccessMode
  deriving DecidableEq, Repr

namespace AccessModes

/-- The `for i, mode := range a.Modes` loop of `ToString`: `modes` is the slice
being filled, `i` the index of the element `mode` at the head of the remaining
input.  An element outside the three constants returns `("", err)` at once. -/
def ToString.loop (modes : List String) : Nat → List PersistentVolumeAccessMode →
    String × Option Error
  | _, [] => (strings.Join modes ",", none)
  | i, mode :: rest =>
    if mode = v1.ReadOnlyMany then ToString.loop (modes.set i "ro") (i + 1) rest
    else if mode = v1.ReadWriteMany then ToString.loop (modes.set i "rw") (i + 1) rest
    else if mode = v1.ReadWriteOnce then ToString.loop (modes.set i "rw-once") (i + 1) rest
    else ("", some (Error.InvalidInstance mode))

/-- Go `func (a *AccessModes) ToString() (string, error)`; the receiver may be
`nil` (`none`). -/
def ToString (a : Option AccessModes) : String × Option Error :=
  match a with
  | none => ("", none)
  | some a =>
    if a.Modes.length = 0 then ("", none)
    else ToString.loop (List.replicate a.Modes.length "") 0 a.Modes

/-- The `for i, mode := range modes` loop of `InitFromString`: `out` is
`a.Modes`, written at index `i`; `s` is the whole input, quoted in the error. -/
def InitFromString.loop (s : String) (out : List PersistentVolumeAccessMode) :
    Nat → List String → List PersistentVolumeAccessMode × Option Error
  | _, [] => (out, none)
  | i, mode :: rest =>
    if mode = "ro" then InitFromString.loop s (out.set i v1.ReadOnlyMany) (i + 1) rest
    else if mode = "rw" then InitFromString.loop s (out.set i v1.ReadWriteMany) (i + 1) rest
    else if mode = "rw-once" then InitFromString.loop s (out.set i v1.ReadWriteOnce) (i + 1) rest
    else (out, some (Error.InvalidValue ("couldn't parse (" ++ s ++ ")")))

/-- Go `func (a *AccessModes) InitFromString(s string) error`: the new value of
the receiver and the returned error. -/
def InitFromString (_a : AccessModes) (s : String) : AccessModes × Option Error :=
  let modes := strings.Split s ','
  if modes.length = 0 then
    ({ Modes := [] }, none)
  else
    let r := InitFromString.loop s (List.replicate modes.length "") 0 modes
    ({ Modes := r.1 }, r.2)

end AccessModes

/-! ## JSON values (package `encoding/json`) -/

/-- A JSON value.  A JSON text held in a `[]byte` is represented by the value it
denotes; an object is the list of its members, a number keeps its literal. -/
inductive JSON where
  | null
  | bool (b : Bool)
  | num (lit : String)
  | str (s : String)
  | arr (elems : List JSON)
  | obj (members : List (String × JSON))

namespace json

/-- Go `json.Unmarshal(data, &str)` for `str` of type `string`: a JSON string is
stored, `null` leaves `str` as it is, any other value is a type error. -/
def UnmarshalString (data : JSON) (str : String) : String × Option Error :=
  match data with
  | JSON.str v => (v, none)
  | JSON.null => (str, none)
  | _ => (str, some (Error.Json "json: cannot unmarshal value into Go value of type string"))

/-- Go `json.Marshal` of a string (or of a pointer to one): it cannot fail. -/
def MarshalString (str : String) : Option JSON × Option Error :=
  (some (JSON.str str), none)

end json

/-! ## Package `regexp` -/

namespace regexp

/-- Greedy repetition `x*` of a one-character class `cls`, followed by the rest
of the pattern, `k`.  Matching is by backtracking with Go's leftmost-first
preference: the repetition first takes one more character when it can, and
gives it back only if the rest of the pattern then fails.  `pre` is the text
the repetition has consumed, the last argument the text still to be matched;
`k` receives the text consumed and the text left. -/
def star {α : Type} (cls : Char → Bool) (k : List Char → List Char → Option α) :
    List Char → List Char → Option α
  | pre, [] => k pre []
  | pre, c :: cs =>
    if cls c then
      match star cls k (pre ++ [c]) cs with
      | some r => some r
      | none => k pre (c :: cs)
    else k pre (c :: cs)

/-- The class `.` without the `s` flag: every character except line feed. -/
def dot (c : Char) : Bool := c != '\n'

/-- The class `[^:]`: every character except the colon, line feed included. -/
def notColon (c : Char) : Bool := c != ':'

end regexp

/-! ## Go strings as bytes

A Go `string` is a sequence of bytes that need not be valid UTF-8.  Where the
code hands a string it was given to `json.Marshal`, which rewrites bytes that
are not valid UTF-8, the string is kept as its bytes (`GoString`); a Lean
`String` stands for a Go string that is valid UTF-8. -/

namespace utf8

/-- Go `utf8.AppendRune` on a Unicode scalar value `n`: its UTF-8 encoding, one
to four bytes. -/
def EncodeRune (n : Nat) : List Nat :=
  if n < 0x80 then [n]
  else if n < 0x800 then [0xC0 + n / 0x40, 0x80 + n % 0x40]
  else if n < 0x10000 then [0xE0 + n / 0x1000, 0x80 + n / 0x40 % 0x40, 0x80 + n % 0x40]
  else [0xF0 + n / 0x40000, 0x80 + n / 0x1000 % 0x40, 0x80 + n / 0x40 % 0x40, 0x80 + n % 0x40]

/-- The UTF-8 bytes of a sequence of characters. -/
def encode : List Char → List Nat
  | [] => []
  | c :: cs => EncodeRune c.toNat ++ encode cs

/-- The code point that the first byte, and as many following bytes as it
announces, would spell if they were a well-formed encoding; nothing is checked
here. -/
def candidate : List Nat → Nat
  | [] => 0
  | b0 :: rest =>
    if b0 < 0x80 then b0
    else if b0 < 0xE0 then (b0 - 0xC0) * 0x40 + (rest.getD 0 0 - 0x80)
    else if b0 < 0xF0 then
      (b0 - 0xE0) * 0x1000 + (rest.getD 0 0 - 0x80) * 0x40 + (rest.getD 1 0 - 0x80)
    else
      (b0 - 0xF0) * 0x40000 + (rest.getD 0 0 - 0x80) * 0x1000 + (rest.getD 1 0 - 0x80) * 0x40 +
        (rest.getD 2 0 - 0x80)

/-- Go `utf8.DecodeRune`: when the bytes start with the encoding of a Unicode
scalar value (the shortest form, no surrogate, at most U+10FFFF), that
character and the number of bytes of its encoding; `none` stands for the
result `(RuneError, 1)` on bytes that start with no such encoding.  The check
is made by encoding the candidate again. -/
def DecodeRune (bs : List Nat) : Option (Char × Nat) :=
  if (candidate bs).isValidChar ∧ (EncodeRune (candidate bs)).isPrefixOf bs = true then
    some (Char.ofNat (candidate bs), (EncodeRune (candidate bs)).length)
  else none

/-- The loop by which `json.Marshal` writes a Go string: a well-formed encoding
is written as its character and passed over, any other byte is written as
U+FFFD and one byte is passed over.  `skip` counts the bytes of the encoding
just accepted that are still to be passed over. -/
def toValidAux : Nat → List Nat → List Char
  | _, [] => []
  | skip + 1, _ :: bs => toValidAux skip bs
  | 0, b :: bs =>
    match DecodeRune (b :: bs) with
    | some (c, size) => c :: toValidAux (size - 1) bs
    | none => '\uFFFD' :: toValidAux 0 bs

end utf8

/-- A Go `string` as the program may hold it: its bytes, each below 256. -/
structure GoString where
  bytes : List Nat
  deriving DecidableEq, Repr

namespace GoString

/-- The Go string of a text: its UTF-8 bytes. -/
def ofString (s : String) : GoString := { bytes := utf8.encode s.data }

instance : Coe String GoString := ⟨ofString⟩

/-- Go `s + t`. -/
def append (s t : GoString) : GoString := { bytes := s.bytes ++ t.bytes }

instance : Append GoString := ⟨append⟩

/-- Go `len(s)`, the length in bytes. -/
def len (s : GoString) : Nat := s.bytes.length

/-- The text `json.Marshal` writes for a Go string: the string coerced to valid
UTF-8, every byte that is part of no well-formed encoding replaced by U+FFFD. -/
def toValidString (s : GoString) : String := String.mk (utf8.toValidAux 0 s.bytes)

end GoString

namespace json

/-- Go `json.Marshal` of a Go string (or of a pointer to one): it cannot fail,
and writes the string coerced to valid UTF-8. -/
def MarshalGoString (str : GoString) : Option JSON × Option Error :=
  (some (JSON.str str.toValidString), none)

end json

/-! ## Secret references -/

/-- Go `type SecretReference struct { Name string; Namespace string }`. -/
structure SecretReference where
  Name : GoString
  Namespace : GoString
  deriving DecidableEq, Repr

namespace secretRefRegexp

/-- The tail `([^:]*)` of the pattern, after group 1 matched `g1` and the colon
was read: group 2 is the longest colon-free run.  The pattern ends there (it
has no `$`), so the match succeeds whatever follows.  The result is the slice
of submatches: the whole match, group 1, group 2. -/
def group2 (g1 : List Char) (rest : List Char) : Option (List String) :=
  regexp.star regexp.notColon
    (fun g2 _ => some [String.mk (g1 ++ ':' :: g2), String.mk g1, String.mk g2]) [] rest

/-- The part `:([^:]*)` of the pattern, after group 1 matched `g1`. -/
def colonThenGroup2 (g1 : List Char) (rest : List Char) : Option (List String) :=
  match rest with
  | [] => none
  | c :: rest' => if c = ':' then group2 g1 rest' else none

/-- Go `secretRefRegexp.FindStringSubmatch(str)` for the pattern
`^(.*):([^:]*)`.  The pattern starts with `^`, which without the `m` flag
matches at the start of the text only, so offset 0 is the only candidate.  No
match is the nil slice. -/
def FindStringSubmatch (str : String) : List String :=
  match regexp.star regexp.dot colonThenGroup2 [] str.data with
  | some ms => ms
  | none => []

end secretRefRegexp

namespace SecretReference

/-- Go `func (s *SecretReference) UnmarshalJSON(data []byte) error`: the new
value of the receiver and the returned error.  The local `str` holds the text
`json.Unmarshal` decoded, which is valid UTF-8; the pattern is matched on it,
and what is stored in the fields is kept as bytes. -/
def UnmarshalJSON (s : SecretReference) (data : JSON) : SecretReference × Option Error :=
  let (str, err) := json.UnmarshalString data ""
  match err with
  | some e => (s, some (Error.Contextualized e "secret ref should be a string"))
  | none =>
    let ms := secretRefRegexp.FindStringSubmatch str
    if ms.length > 0 then
      ({ s with Namespace := GoString.ofString (ms.getD 1 ""),
                Name := GoString.ofString (ms.getD 2 "") }, none)
    else
      ({ s with Name := GoString.ofString str }, none)

/-- Go `func (s SecretReference) MarshalJSON() ([]byte, error)`.  The fields
are whatever bytes the caller put there; `fmt.Sprintf("%s:%s", ...)` joins them
as they are, and `json.Marshal` coerces the result to valid UTF-8. -/
def MarshalJSON (s : SecretReference) : Option JSON × Option Error :=
  if s.Namespace.len > 0 then
    json.MarshalGoString (s.Namespace ++ GoString.ofString ":" ++ s.Name)
  else
    json.MarshalGoString s.Name

end SecretReference

/-! ## Go maps of JSON values -/

/-- Go `map[string]interface{}` holding decoded JSON values: the list of its
entries, with distinct keys.  The nil map and the empty map are both `[]`. -/
abbrev Obj := List (String × JSON)

namespace Obj

/-- Go `val, ok := obj[key]`. -/
def get : Obj → String → Option JSON
  | [], _ => none
  | (k, v) :: rest, key => if k = key then some v else get rest key

/-- Go `obj[key] = val`. -/
def set : Obj → String → JSON → Obj
  | [], key, val => [(key, val)]
  | (k, v) :: rest, key, val =>
    if k = key then (key, val) :: rest else (k, v) :: set rest key val

end Obj

/-- Go `map[string]string`: the list of its entries, with distinct keys. -/
abbrev StringMap := List (String × String)

/-- Go `m[key] = val` on a `map[string]string`. -/
def StringMap.set : StringMap → String → String → StringMap
  | [], key, val => [(key, val)]
  | (k, v) :: rest, key, val =>
    if k = key then (key, val) :: rest else (k, v) :: StringMap.set rest key val

/-! ## What `encoding/json` does with the fields of a struct

`json.Marshal` of a struct writes one member per field, in field order, under
the key of the field's tag, leaving out a field tagged `omitempty` whose value
is empty; the first field that fails to encode aborts the call.

`json.Unmarshal` into a struct decodes in place.  It walks the members of the
object in the order of the input; a member whose key matches the name of a
field, exactly or under case folding, is decoded into that field as the field
now is, and any other member is skipped.  A value of the wrong kind for its
target leaves the target alone, is remembered as an error if it is the first
such, and the walk goes on; an error returned by an `UnmarshalJSON` method ends
the call at once.  Either way the target keeps everything stored up to then. -/

namespace json

/-- Go `json.Unmarshal(data, &obj)` into a `map[string]interface{}`: the members
are stored into the map, `null` leaves it alone, anything else is an error. -/
def UnmarshalObj (data : JSON) (obj : Obj) : Except Error Obj :=
  match data with
  | JSON.obj members => Except.ok (members.foldl (fun o kv => o.set kv.1 kv.2) obj)
  | JSON.null => Except.ok obj
  | _ => Except.error
      (Error.Json "json: cannot unmarshal value into Go value of type map[string]interface {}")

/-- Go `json.Marshal(obj)` of a map of decoded JSON values: it cannot fail. -/
def MarshalObj (obj : Obj) : Option JSON × Option Error :=
  (some (JSON.obj obj), none)

/-- What `json.Marshal` makes of the result of a `MarshalJSON` method: an
error is wrapped into a `MarshalerError`, and no bytes at all is not JSON. -/
def ofMarshalJSON (r : Option JSON × Option Error) : Except Error JSON :=
  match r with
  | (_, some e) => Except.error (Error.Marshaler e)
  | (some j, none) => Except.ok j
  | (none, none) => Except.error (Error.Json "unexpected end of JSON input")

/-- Encoding a `string` field. -/
def encodeString (key : String) (omitempty : Bool) (v : String) : List (String × JSON) :=
  if omitempty && v = "" then [] else [(key, JSON.str v)]

/-- Encoding a `bool` field. -/
def encodeBool (key : String) (omitempty : Bool) (v : Bool) : List (String × JSON) :=
  if omitempty && v = false then [] else [(key, JSON.bool v)]

/-- Encoding a `map[string]string` field tagged `omitempty`. -/
def encodeStringMap (key : String) (v : StringMap) : List (String × JSON) :=
  if v.length = 0 then [] else [(key, JSON.obj (v.map (fun kv => (kv.1, JSON.str kv.2))))]

/-- Encoding a `[]string` field without `omitempty`; `none` is the nil slice,
written as `null`. -/
def encodeStringSlice (key : String) (v : Option (List String)) : List (String × JSON) :=
  match v with
  | none => [(key, JSON.null)]
  | some l => [(key, JSON.arr (l.map JSON.str))]

/-- Encoding a pointer field tagged `omitempty`: nothing for the nil pointer,
otherwise what `marshal` makes of the value pointed to. -/
def encodePtr {α : Type} (key : String) (marshal : α → Except Error JSON) (v : Option α) :
    Except Error (List (String × JSON)) :=
  match v with
  | none => Except.ok []
  | some x =>
    match marshal x with
    | Except.ok j => Except.ok [(key, j)]
    | Except.error e => Except.error e

/-- What decoding one JSON value into a Go value leaves behind.  `next`: the
decoder goes on with the rest of the input; `value` is the target as it now is
and `saved` the type error this value made the decoder remember
(`d.saveError`), if any.  `abort`: an `UnmarshalJSON` method returned `err`,
which ends the whole `json.Unmarshal`; `value` is the target as the method left
it. -/
inductive Outcome (α : Type) where
  | next (value : α) (saved : Option Error)
  | abort (value : α) (err : Error)

namespace Outcome

/-- The target after the step. -/
def value {α : Type} : Outcome α → α
  | next v _ => v
  | abort v _ => v

/-- The step seen from the struct, map or pointer that holds the target: `f`
puts the new target back into its holder. -/
def map {α β : Type} (f : α → β) : Outcome α → Outcome β
  | next v saved => next (f v) saved
  | abort v err => abort (f v) err

/-- What the caller of `json.Unmarshal` gets: the target as it was left, and
the error that ended the call or else the first error saved. -/
def result {α : Type} : Outcome α → α × Option Error
  | next v saved => (v, saved)
  | abort v err => (v, some err)

end Outcome

/-- Go `d.saveError(err)`: only the first error is kept. -/
def saveError (savedError : Option Error) (err : Option Error) : Option Error :=
  match savedError with
  | some e => some e
  | none => err

/-- The letter a character of a key is folded to when the key is compared with
the name of a field: an upper-case ASCII letter to its lower-case form, and the
two characters outside ASCII whose case folding is an ASCII letter, U+017F to
`s` and U+212A to `k`. -/
def foldRune (c : Char) : Char :=
  if 0x41 ≤ c.toNat ∧ c.toNat ≤ 0x5A then Char.ofNat (c.toNat + 0x20)
  else if c.toNat = 0x17F then 's'
  else if c.toNat = 0x212A then 'k'
  else c

/-- The test by which `json.Unmarshal` matches the key of a member with the
name of a field (an exact match, or else `bytes.EqualFold`), for a name written
in lower-case ASCII letters and underscores, as the names of all the tags here
are. -/
def equalFold (name key : String) : Bool :=
  key.data.map foldRune == name.data

/-- Decoding a value into a `string`. -/
def storeString (data : JSON) (cur : String) : Outcome String :=
  match data with
  | JSON.str s => Outcome.next s none
  | JSON.null => Outcome.next cur none
  | _ => Outcome.next cur
      (some (Error.Json "json: cannot unmarshal value into Go value of type string"))

/-- Decoding a value into a `bool`. -/
def storeBool (data : JSON) (cur : Bool) : Outcome Bool :=
  match data with
  | JSON.bool b => Outcome.next b none
  | JSON.null => Outcome.next cur none
  | _ => Outcome.next cur
      (some (Error.Json "json: cannot unmarshal value into Go value of type bool"))

/-- The members of an object decoded into a `map[string]string`, in the order
of the input: every member is decoded into a new empty string, which is then
stored under the member's key, also when the value was of the wrong kind. -/
def storeStringMap.loop : List (String × JSON) → StringMap → Option Error → Outcome StringMap
  | [], m, saved => Outcome.next m saved
  | (key, val) :: rest, m, saved =>
    match storeString val "" with
    | Outcome.next s sv => storeStringMap.loop rest (m.set key s) (saveError saved sv)
    | Outcome.abort s err => Outcome.abort (m.set key s) err

/-- Decoding a value into a `map[string]string`: `null` makes the map nil, an
object stores its members into the map as it is. -/
def storeStringMap (data : JSON) (cur : StringMap) : Outcome StringMap :=
  match data with
  | JSON.null => Outcome.next [] none
  | JSON.obj members => storeStringMap.loop members cur none
  | _ => Outcome.next cur
      (some (Error.Json "json: cannot unmarshal value into Go value of type map[string]string"))

/-- The elements of an array decoded into a `[]string`, in order: element `i`
is decoded into the slice's element `i` when the slice has one (`cur` holds the
elements from `i` on) and into a new empty string otherwise; `out` is the slice
up to `i`. -/
def storeStringSlice.loop : List JSON → List String → List String → Option Error →
    Outcome (List String)
  | [], _, out, saved => Outcome.next out saved
  | e :: es, cur, out, saved =>
    match storeString e (cur.headD "") with
    | Outcome.next s sv => storeStringSlice.loop es cur.tail (out ++ [s]) (saveError saved sv)
    | Outcome.abort s err => Outcome.abort (out ++ [s] ++ cur.tail) err

/-- Decoding a value into a `[]string` (`none` is the nil slice): `null` makes
the slice nil, an array gives a slice of as many elements as it has. -/
def storeStringSlice (data : JSON) (cur : Option (List String)) :
    Outcome (Option (List String)) :=
  match data with
  | JSON.null => Outcome.next none none
  | JSON.arr elems => (storeStringSlice.loop elems (cur.getD []) [] none).map some
  | _ => Outcome.next cur
      (some (Error.Json "json: cannot unmarshal value into Go value of type []string"))

/-- Decoding a value into a pointer: `null` makes the pointer nil; for any other
value a nil pointer is first made to point to a new zero value, and the value
is decoded by `store` into what the pointer points to. -/
def storePtr {α : Type} (zero : α) (store : JSON → α → Outcome α) (data : JSON)
    (cur : Option α) : Outcome (Option α) :=
  match data with
  | JSON.null => Outcome.next none none
  | _ => (store data (cur.getD zero)).map some

/-- Decoding a value into a target whose type has an `UnmarshalJSON` method:
`r` is the new receiver and the error the method returned. -/
def callUnmarshalJSON {α : Type} (r : α × Option Error) : Outcome α :=
  match r.2 with
  | some e => Outcome.abort r.1 e
  | none => Outcome.next r.1 none

/-- The members of an object decoded into a struct, in the order of the input;
`store` decodes one member into the struct: it finds the field the key names
and decodes the value into it, or skips the member. -/
def storeMembers {α : Type} (store : α → String → JSON → Outcome α) :
    List (String × JSON) → α → Option Error → Outcome α
  | [], a, saved => Outcome.next a saved
  | (key, val) :: rest, a, saved =>
    match store a key val with
    | Outcome.next a1 sv => storeMembers store rest a1 (saveError saved sv)
    | Outcome.abort a1 err => Outcome.abort a1 err

/-- Decoding a value into a struct of the type named `typeName`: `null` leaves
it alone, an object is decoded member by member, anything else is of the wrong
kind. -/
def storeStruct {α : Type} (typeName : String) (store : α → String → JSON → Outcome α)
    (data : JSON) (cur : α) : Outcome α :=
  match data with
  | JSON.null => Outcome.next cur none
  | JSON.obj members => storeMembers store members cur none
  | _ => Outcome.next cur
      (some (Error.Json ("json: cannot unmarshal value into Go value of type " ++ typeName)))

end json

/-! ## Declarations the file uses from elsewhere -/

/-- Go `type MarshalledVolume struct`, declared in another file of the package:
the tag of a volume, its selector segments and its remaining fields. -/
structure MarshalledVolume where
  Type_ : String
  Selector : List String
  ExtraFields : Obj

/-- A type of another package that `encoding/json` encodes and decodes by the
type's own rules: the type, its zero value, `json.Marshal` of a value and what
`json.Unmarshal` does when it decodes a value that is not `null` into a value
of the type. -/
structure JsonType where
  T : Type
  zero : T
  Marshal : T → Except Error JSON
  Unmarshal : JSON → T → json.Outcome T

/-- A volume type declared in another file of the package whose decoder takes
the flat object and the selector: the type, the value of the composite literal
`&T{}`, the method `Unmarshal(obj, selector)` (new receiver and error) and the
method `Marshal()`. -/
structure VolumeDecl where
  T : Type
  zero : T
  Unmarshal : T → Obj → List String → T × Option Error
  Marshal : T → Option MarshalledVolume × Option Error

/-- A volume type declared in another file of the package whose decoder takes
the selector alone: `Unmarshal(selector)`. -/
structure SelectorVolumeDecl where
  T : Type
  zero : T
  Unmarshal : T → List String → T × Option Error
  Marshal : T → Option MarshalledVolume × Option Error

/-- Modelled from the spec: the constant `VolumeTypeRBD`, declared in another
file of the package; it is the discriminator tag of the RBD variant, which a
flat object carries as `vol_type: "rbd"`. -/
def VolumeTypeRBD : String := "rbd"

/-- Everything `persistentvolume.go` refers to and does not declare: the three
Kubernetes types of the metadata, the fifteen other volume types with their
methods, and their tag constants.  The tags are the constant `case` labels of
one `switch`, which the Go compiler accepts only when they are pairwise
distinct. -/
structure Env where
  Quantity : JsonType
  ObjectReference : JsonType
  PersistentVolumeStatus : JsonType
  GcePDVolume : VolumeDecl
  AwsEBSVolume : VolumeDecl
  HostPathVolume : SelectorVolumeDecl
  GlusterfsVolume : VolumeDecl
  NFSVolume : SelectorVolumeDecl
  ISCSIVolume : VolumeDecl
  CinderVolume : VolumeDecl
  FibreChannelVolume : VolumeDecl
  FlockerVolume : SelectorVolumeDecl
  FlexVolume : VolumeDecl
  VsphereVolume : VolumeDecl
  QuobyteVolume : VolumeDecl
  AzureDiskVolume : VolumeDecl
  PhotonPDVolume : SelectorVolumeDecl
  PortworxVolume : VolumeDecl
  VolumeTypeGcePD : String
  VolumeTypeAwsEBS : String
  VolumeTypeHostPath : String
  VolumeTypeGlusterfs : String
  VolumeTypeNFS : String
  VolumeTypeISCSI : String
  VolumeTypeCinder : String
  VolumeTypeFibreChannel : String
  VolumeTypeFlocker : String
  VolumeTypeFlex : String
  VolumeTypeVsphere : String
  VolumeTypeQuobyte : String
  VolumeTypeAzureDisk : String
  VolumeTypePhotonPD : String
  VolumeTypePortworx : String
  tags_distinct : List.Nodup
    [VolumeTypeGcePD, VolumeTypeAwsEBS, VolumeTypeHostPath, VolumeTypeGlusterfs,
      VolumeTypeNFS, VolumeTypeISCSI, VolumeTypeCinder, VolumeTypeFibreChannel,
      VolumeTypeFlocker, VolumeTypeFlex, VolumeTypeVsphere, VolumeTypeQuobyte,
      VolumeTypeAzureDisk, VolumeTypePhotonPD, VolumeTypePortworx, VolumeTypeRBD]

namespace util

/-- Modelled from the spec: `util.MarshalMap`, the record-to-flat-object half of
the generic field mapper (section 4.1, `toFlat(record) -> FlatObject`, honoring
the per-field omission rules).  `marshal` is `json.Marshal` for the record's
type; its object is read back as a map. -/
def MarshalMap {α : Type} (marshal : α → Except Error JSON) (source : α) :
    Obj × Option Error :=
  match marshal source with
  | Except.error e => ([], some e)
  | Except.ok j =>
    match json.UnmarshalObj j [] with
    | Except.ok obj => (obj, none)
    | Except.error e => ([], some e)

/-- Modelled from the spec: `util.UnmarshalMap`, the flat-object-to-record half
of the generic field mapper (section 4.1, `fromFlat(FlatObject) -> record |
error`): permissive about keys no field asks for, failing when a required
field is absent or a value has the wrong primitive kind, and returning no
partial result on failure (section 7).  `required` lists the keys of the fields
that are not optional, `unmarshal` is `json.Unmarshal` for the record's
type. -/
def UnmarshalMap {α : Type} (required : List String)
    (unmarshal : JSON → α → α × Option Error) (data : Obj) (target : α) : Except Error α :=
  match required.find? (fun key => (data.get key).isNone) with
  | some key => Except.error (Error.InvalidValueForType ("missing required field " ++ key))
  | none =>
    match unmarshal (JSON.obj data) target with
    | (record, none) => Except.ok record
    | (_, some e) => Except.error e

/-- Modelled from the spec: `util.GetStringEntry`, reading the string stored in
a flat object under a key (section 4.5 (b): the discriminator key must be
present and hold a string). -/
def GetStringEntry (obj : Obj) (key : String) : String × Option Error :=
  match obj.get key with
  | some (JSON.str s) => (s, none)
  | some _ => ("", some (Error.InvalidValue ("expected string for key " ++ key)))
  | none => ("", some (Error.InvalidValue ("missing key " ++ key)))

end util

/-! ## The access-mode list as a JSON value -/

namespace AccessModes

/-- Go `func (a AccessModes) MarshalJSON() ([]byte, error)`. -/
def MarshalJSON (a : AccessModes) : Option JSON × Option Error :=
  let (str, err) := ToString (some a)
  match err with
  | some e => (none, some e)
  | none => json.MarshalString str

/-- Go `func (a *AccessModes) UnmarshalJSON(data []byte) error`: the new value
of the receiver and the returned error. -/
def UnmarshalJSON (a : AccessModes) (data : JSON) : AccessModes × Option Error :=
  let (str, err) := json.UnmarshalString data ""
  match err with
  | some e =>
    (a, some (Error.InvalidValueForType ("couldn't unmarshal from JSON: " ++ e.Message)))
  | none => InitFromString a str

end AccessModes

/-! ## The RBD volume -/

/-- Go `type RBDPersistentVolume struct`.  `CephMonitors` is a slice written
without `omitempty`, so the nil slice (`none`) is told apart from an empty one;
`SecretRef` is a pointer. -/
structure RBDPersistentVolume where
  CephMonitors : Option (List String)
  RBDImage : String
  FSType : String
  RBDPool : String
  RadosUser : String
  Keyring : String
  SecretRef : Option SecretReference
  ReadOnly : Bool
  deriving DecidableEq, Repr

namespace RBDPersistentVolume

/-- The composite literal `RBDPersistentVolume{}`. -/
def zero : RBDPersistentVolume :=
  { CephMonitors := none, RBDImage := "", FSType := "", RBDPool := "", RadosUser := "",
    Keyring := "", SecretRef := none, ReadOnly := false }

/-- The keys of the fields of the struct that are not tagged `omitempty`. -/
def requiredKeys : List String := ["monitors", "image"]

/-- Go `json.Marshal` of an `RBDPersistentVolume`, by its field tags. -/
def jsonMarshal (s : RBDPersistentVolume) : Except Error JSON :=
  match json.encodePtr "secret" (fun r => json.ofMarshalJSON (SecretReference.MarshalJSON r))
      s.SecretRef with
  | Except.error e => Except.error e
  | Except.ok secret =>
    Except.ok (JSON.obj
      (json.encodeStringSlice "monitors" s.CephMonitors ++
        json.encodeString "image" false s.RBDImage ++
        json.encodeString "fs" true s.FSType ++
        json.encodeString "pool" true s.RBDPool ++
        json.encodeString "user" true s.RadosUser ++
        json.encodeString "keyring" true s.Keyring ++
        secret ++
        json.encodeBool "ro" true s.ReadOnly))

/-- One member of an object decoded into an `RBDPersistentVolume`: the field
whose tag the key matches takes the value. -/
def storeMember (s : RBDPersistentVolume) (key : String) (val : JSON) :
    json.Outcome RBDPersistentVolume :=
  if json.equalFold "monitors" key then
    (json.storeStringSlice val s.CephMonitors).map (fun x => { s with CephMonitors := x })
  else if json.equalFold "image" key then
    (json.storeString val s.RBDImage).map (fun x => { s with RBDImage := x })
  else if json.equalFold "fs" key then
    (json.storeString val s.FSType).map (fun x => { s with FSType := x })
  else if json.equalFold "pool" key then
    (json.storeString val s.RBDPool).map (fun x => { s with RBDPool := x })
  else if json.equalFold "user" key then
    (json.storeString val s.RadosUser).map (fun x => { s with RadosUser := x })
  else if json.equalFold "keyring" key then
    (json.storeString val s.Keyring).map (fun x => { s with Keyring := x })
  else if json.equalFold "secret" key then
    (json.storePtr { Name := "", Namespace := "" }
      (fun d r => json.callUnmarshalJSON (SecretReference.UnmarshalJSON r d))
      val s.SecretRef).map (fun x => { s with SecretRef := x })
  else if json.equalFold "ro" key then
    (json.storeBool val s.ReadOnly).map (fun x => { s with ReadOnly := x })
  else
    json.Outcome.next s none

/-- Go `json.Unmarshal` into an `RBDPersistentVolume`, by its field tags: the
volume as the call left it and the error returned. -/
def jsonUnmarshal (data : JSON) (s : RBDPersistentVolume) :
    RBDPersistentVolume × Option Error :=
  (json.storeStruct "types.RBDPersistentVolume" storeMember data s).result

/-- Go `func (s *RBDPersistentVolume) Unmarshal(obj map[string]interface{},
selector []string) error`: the new value of the receiver and the returned
error. -/
def Unmarshal (s : RBDPersistentVolume) (obj : Obj) (selector : List String) :
    RBDPersistentVolume × Option Error :=
  if selector.length ≠ 0 then
    (s, some (Error.InvalidValue ("expected zero selector segments for " ++ VolumeTypeRBD)))
  else
    match util.UnmarshalMap requiredKeys jsonUnmarshal obj s with
    | Except.error err => (s, some (Error.Contextualized err VolumeTypeRBD))
    | Except.ok s' => (s', none)

/-- Go `func (s RBDPersistentVolume) Marshal() (*MarshalledVolume, error)`. -/
def Marshal (s : RBDPersistentVolume) : Option MarshalledVolume × Option Error :=
  let (obj, err) := util.MarshalMap jsonMarshal s
  match err with
  | some e => (none, some (Error.Contextualized e VolumeTypeRBD))
  | none => (some { Type_ := VolumeTypeRBD, Selector := [], ExtraFields := obj }, none)

end RBDPersistentVolume

/-! ## The metadata -/

/-- Go `type PersistentVolumeReclaimPolicy string`. -/
abbrev PersistentVolumeReclaimPolicy := String

/-- Go `type PersistentVolumeMeta struct`. -/
structure PersistentVolumeMeta (E : Env) where
  Version : String
  Cluster : String
  Name : String
  Namespace : String
  Labels : StringMap
  Annotations : StringMap
  Storage : Option E.Quantity.T
  AccessModes : Option AccessModes
  Claim : Option E.ObjectReference.T
  ReclaimPolicy : PersistentVolumeReclaimPolicy
  StorageClass : String
  MountOptions : String
  Status : Option E.PersistentVolumeStatus.T

namespace PersistentVolumeMeta

/-- The zero value `PersistentVolumeMeta{}`. -/
def zero (E : Env) : PersistentVolumeMeta E :=
  { Version := "", Cluster := "", Name := "", Namespace := "", Labels := [], Annotations := [],
    Storage := none, AccessModes := none, Claim := none, ReclaimPolicy := "",
    StorageClass := "", MountOptions := "", Status := none }

/-- Go `json.Marshal` of a `PersistentVolumeMeta`, by its field tags (every
field is tagged `omitempty`). -/
def jsonMarshal (E : Env) (m : PersistentVolumeMeta E) : Except Error JSON := do
  let storage ← json.encodePtr "storage" E.Quantity.Marshal m.Storage
  let modes ← json.encodePtr "modes"
    (fun a => json.ofMarshalJSON (AccessModes.MarshalJSON a)) m.AccessModes
  let claim ← json.encodePtr "claim" E.ObjectReference.Marshal m.Claim
  let status ← json.encodePtr "status" E.PersistentVolumeStatus.Marshal m.Status
  pure (JSON.obj
    (json.encodeString "version" true m.Version ++
      json.encodeString "cluster" true m.Cluster ++
      json.encodeString "name" true m.Name ++
      json.encodeString "namespace" true m.Namespace ++
      json.encodeStringMap "labels" m.Labels ++
      json.encodeStringMap "annotations" m.Annotations ++
      storage ++ modes ++ claim ++
      json.encodeString "reclaim" true m.ReclaimPolicy ++
      json.encodeString "storage_class" true m.StorageClass ++
      json.encodeString "mount_options" true m.MountOptions ++
      status))

/-- One member of an object decoded into a `PersistentVolumeMeta`: the field
whose tag the key matches takes the value. -/
def storeMember (E : Env) (m : PersistentVolumeMeta E) (key : String) (val : JSON) :
    json.Outcome (PersistentVolumeMeta E) :=
  if json.equalFold "version" key then
    (json.storeString val m.Version).map (fun x => { m with Version := x })
  else if json.equalFold "cluster" key then
    (json.storeString val m.Cluster).map (fun x => { m with Cluster := x })
  else if json.equalFold "name" key then
    (json.storeString val m.Name).map (fun x => { m with Name := x })
  else if json.equalFold "namespace" key then
    (json.storeString val m.Namespace).map (fun x => { m with Namespace := x })
  else if json.equalFold "labels" key then
    (json.storeStringMap val m.Labels).map (fun x => { m with Labels := x })
  else if json.equalFold "annotations" key then
    (json.storeStringMap val m.Annotations).map (fun x => { m with Annotations := x })
  else if json.equalFold "storage" key then
    (json.storePtr E.Quantity.zero E.Quantity.Unmarshal val m.Storage).map
      (fun x => { m with Storage := x })
  else if json.equalFold "modes" key then
    (json.storePtr { Modes := [] }
      (fun d a => json.callUnmarshalJSON (AccessModes.UnmarshalJSON a d))
      val m.AccessModes).map (fun x => { m with AccessModes := x })
  else if json.equalFold "claim" key then
    (json.storePtr E.ObjectReference.zero E.ObjectReference.Unmarshal val m.Claim).map
      (fun x => { m with Claim := x })
  else if json.equalFold "reclaim" key then
    (json.storeString val m.ReclaimPolicy).map (fun x => { m with ReclaimPolicy := x })
  else if json.equalFold "storage_class" key then
    (json.storeString val m.StorageClass).map (fun x => { m with StorageClass := x })
  else if json.equalFold "mount_options" key then
    (json.storeString val m.MountOptions).map (fun x => { m with MountOptions := x })
  else if json.equalFold "status" key then
    (json.storePtr E.PersistentVolumeStatus.zero E.PersistentVolumeStatus.Unmarshal
      val m.Status).map (fun x => { m with Status := x })
  else
    json.Outcome.next m none

/-- Go `json.Unmarshal` into a `PersistentVolumeMeta`, by its field tags: the
metadata as the call left it and the error returned. -/
def jsonUnmarshal (E : Env) (data : JSON) (m : PersistentVolumeMeta E) :
    PersistentVolumeMeta E × Option Error :=
  (json.storeStruct "types.PersistentVolumeMeta" (storeMember E) data m).result

end PersistentVolumeMeta

/-! ## The volume source -/

/-- Go `type PersistentVolumeSource struct`: sixteen pointers, one per variant,
in declaration order. -/
structure PersistentVolumeSource (E : Env) where
  GcePD : Option E.GcePDVolume.T
  AwsEBS : Option E.AwsEBSVolume.T
  HostPath : Option E.HostPathVolume.T
  Glusterfs : Option E.GlusterfsVolume.T
  NFS : Option E.NFSVolume.T
  ISCSI : Option E.ISCSIVolume.T
  Cinder : Option E.CinderVolume.T
  FibreChannel : Option E.FibreChannelVolume.T
  Flocker : Option E.FlockerVolume.T
  Flex : Option E.FlexVolume.T
  Vsphere : Option E.VsphereVolume.T
  Quobyte : Option E.QuobyteVolume.T
  AzureDisk : Option E.AzureDiskVolume.T
  PhotonPD : Option E.PhotonPDVolume.T
  Portworx : Option E.PortworxVolume.T
  RBD : Option RBDPersistentVolume

namespace PersistentVolumeSource

/-- The zero value `PersistentVolumeSource{}`: no variant set. -/
def zero (E : Env) : PersistentVolumeSource E :=
  { GcePD := none, AwsEBS := none, HostPath := none, Glusterfs := none, NFS := none,
    ISCSI := none, Cinder := none, FibreChannel := none, Flocker := none, Flex := none,
    Vsphere := none, Quobyte := none, AzureDisk := none, PhotonPD := none, Portworx := none,
    RBD := none }

/-- Go `func (v *PersistentVolumeSource) Unmarshal(obj map[string]interface{},
volType string, selector []string) error`: the new value of the receiver and
the returned error.  Each case stores a pointer to a new zero value in the
variant's field and then runs the variant's decoder on it. -/
def Unmarshal (E : Env) (v : PersistentVolumeSource E) (obj : Obj) (volType : String)
    (selector : List String) : PersistentVolumeSource E × Option Error :=
  if volType = E.VolumeTypeGcePD then
    let r := E.GcePDVolume.Unmarshal E.GcePDVolume.zero obj selector
    ({ v with GcePD := some r.1 }, r.2)
  else if volType = E.VolumeTypeAwsEBS then
    let r := E.AwsEBSVolume.Unmarshal E.AwsEBSVolume.zero obj selector
    ({ v with AwsEBS := some r.1 }, r.2)
  else if volType = E.VolumeTypeHostPath then
    let r := E.HostPathVolume.Unmarshal E.HostPathVolume.zero selector
    ({ v with HostPath := some r.1 }, r.2)
  else if volType = E.VolumeTypeGlusterfs then
    let r := E.GlusterfsVolume.Unmarshal E.GlusterfsVolume.zero obj selector
    ({ v with Glusterfs := some r.1 }, r.2)
  else if volType = E.VolumeTypeNFS then
    let r := E.NFSVolume.Unmarshal E.NFSVolume.zero selector
    ({ v with NFS := some r.1 }, r.2)
  else if volType = E.VolumeTypeISCSI then
    let r := E.ISCSIVolume.Unmarshal E.ISCSIVolume.zero obj selector
    ({ v with ISCSI := some r.1 }, r.2)
  else if volType = E.VolumeTypeCinder then
    let r := E.CinderVolume.Unmarshal E.CinderVolume.zero obj selector
    ({ v with Cinder := some r.1 }, r.2)
  else if volType = E.VolumeTypeFibreChannel then
    let r := E.FibreChannelVolume.Unmarshal E.FibreChannelVolume.zero obj selector
    ({ v with FibreChannel := some r.1 }, r.2)
  else if volType = E.VolumeTypeFlocker then
    let r := E.FlockerVolume.Unmarshal E.FlockerVolume.zero selector
    ({ v with Flocker := some r.1 }, r.2)
  else if volType = E.VolumeTypeFlex then
    let r := E.FlexVolume.Unmarshal E.FlexVolume.zero obj selector
    ({ v with Flex := some r.1 }, r.2)
  else if volType = E.VolumeTypeVsphere then
    let r := E.VsphereVolume.Unmarshal E.VsphereVolume.zero obj selector
    ({ v with Vsphere := some r.1 }, r.2)
  else if volType = E.VolumeTypeQuobyte then
    let r := E.QuobyteVolume.Unmarshal E.QuobyteVolume.zero obj selector
    ({ v with Quobyte := some r.1 }, r.2)
  else if volType = E.VolumeTypeAzureDisk then
    let r := E.AzureDiskVolume.Unmarshal E.AzureDiskVolume.zero obj selector
    ({ v with AzureDisk := some r.1 }, r.2)
  else if volType = E.VolumeTypePhotonPD then
    let r := E.PhotonPDVolume.Unmarshal E.PhotonPDVolume.zero selector
    ({ v with PhotonPD := some r.1 }, r.2)
  else if volType = E.VolumeTypePortworx then
    let r := E.PortworxVolume.Unmarshal E.PortworxVolume.zero obj selector
    ({ v with Portworx := some r.1 }, r.2)
  else if volType = VolumeTypeRBD then
    let r := RBDPersistentVolume.Unmarshal RBDPersistentVolume.zero obj selector
    ({ v with RBD := some r.1 }, r.2)
  else
    (v, some (Error.InvalidValue ("unsupported volume type (" ++ volType ++ ")")))

/-- Go `func (v *PersistentVolumeSource) UnmarshalJSON(data []byte) error`: the
new value of the receiver and the returned error. -/
def UnmarshalJSON (E : Env) (v : PersistentVolumeSource E) (data : JSON) :
    PersistentVolumeSource E × Option Error :=
  match json.UnmarshalObj data [] with
  | Except.error _ =>
    (v, some (Error.InvalidValue "expected dictionary for persistent volume"))
  | Except.ok obj =>
    let selector : Option (List String) :=
      match obj.get "vol_id" with
      | none => some []
      | some (JSON.str volName) => some (strings.Split volName ':')
      | some _ => none
    match selector with
    | none => (v, some (Error.InvalidValue "expected string for key \"vol_id\""))
    | some selector =>
      let (volType, err) := util.GetStringEntry obj "vol_type"
      match err with
      | some e => (v, some e)
      | none => Unmarshal E v obj volType selector

/-- The value of `marshalledVolume, err` after the sixteen `if` statements of
`MarshalJSON`: every variant that is set overwrites both with the result of its
`Marshal`. -/
def marshalVariants (E : Env) (v : PersistentVolumeSource E) :
    Option MarshalledVolume × Option Error :=
  let r : Option MarshalledVolume × Option Error := (none, none)
  let r := match v.GcePD with | some x => E.GcePDVolume.Marshal x | none => r
  let r := match v.AwsEBS with | some x => E.AwsEBSVolume.Marshal x | none => r
  let r := match v.HostPath with | some x => E.HostPathVolume.Marshal x | none => r
  let r := match v.Glusterfs with | some x => E.GlusterfsVolume.Marshal x | none => r
  let r := match v.NFS with | some x => E.NFSVolume.Marshal x | none => r
  let r := match v.ISCSI with | some x => E.ISCSIVolume.Marshal x | none => r
  let r := match v.Cinder with | some x => E.CinderVolume.Marshal x | none => r
  let r := match v.FibreChannel with | some x => E.FibreChannelVolume.Marshal x | none => r
  let r := match v.Flocker with | some x => E.FlockerVolume.Marshal x | none => r
  let r := match v.Flex with | some x => E.FlexVolume.Marshal x | none => r
  let r := match v.Vsphere with | some x => E.VsphereVolume.Marshal x | none => r
  let r := match v.Quobyte with | some x => E.QuobyteVolume.Marshal x | none => r
  let r := match v.AzureDisk with | some x => E.AzureDiskVolume.Marshal x | none => r
  let r := match v.PhotonPD with | some x => E.PhotonPDVolume.Marshal x | none => r
  let r := match v.Portworx with | some x => E.PortworxVolume.Marshal x | none => r
  let r := match v.RBD with | some x => RBDPersistentVolume.Marshal x | none => r
  r

/-- Go `func (v PersistentVolumeSource) MarshalJSON() ([]byte, error)`.  The
statement that replaces an empty `ExtraFields` by a new empty map has no effect
in this representation, where the nil map and the empty map are the same. -/
def MarshalJSON (E : Env) (v : PersistentVolumeSource E) : Option JSON × Option Error :=
  let (marshalledVolume, err) := marshalVariants E v
  match err with
  | some e => (none, some e)
  | none =>
    match marshalledVolume with
    | none => (none, some (Error.InvalidInstance "empty volume definition"))
    | some marshalledVolume =>
      let obj := marshalledVolume.ExtraFields
      let obj := obj.set "vol_type" (JSON.str marshalledVolume.Type_)
      let obj :=
        if marshalledVolume.Selector.length > 0 then
          obj.set "vol_id" (JSON.str (strings.Join marshalledVolume.Selector ":"))
        else obj
      json.MarshalObj obj

end PersistentVolumeSource

/-! ## The persistent volume -/

/-- Go `type PersistentVolume struct`, the metadata and the volume source
embedded side by side. -/
structure PersistentVolume (E : Env) where
  PersistentVolumeMeta : PersistentVolumeMeta E
  PersistentVolumeSource : PersistentVolumeSource E

namespace PersistentVolume

/-- The zero value `PersistentVolume{}`, a fresh record. -/
def zero (E : Env) : PersistentVolume E :=
  { PersistentVolumeMeta := PersistentVolumeMeta.zero E,
    PersistentVolumeSource := PersistentVolumeSource.zero E }

/-- Go `func (v *PersistentVolume) UnmarshalJSON(data []byte) error`: the new
value of the receiver and the returned error.  The volume source is decoded
through its own `UnmarshalJSON`, then the metadata by its field tags, both from
the same `data` and both in place: what a failing step has stored stays in the
receiver. -/
def UnmarshalJSON (E : Env) (v : PersistentVolume E) (data : JSON) :
    PersistentVolume E × Option Error :=
  let (source, err) := PersistentVolumeSource.UnmarshalJSON E v.PersistentVolumeSource data
  let v := { v with PersistentVolumeSource := source }
  match err with
  | some e =>
    (v, some (Error.InvalidValueForType
      ("couldn't unmarshal volume source from JSON: " ++ e.Message)))
  | none =>
    let (meta, err) := PersistentVolumeMeta.jsonUnmarshal E data v.PersistentVolumeMeta
    let v := { v with PersistentVolumeMeta := meta }
    match err with
    | some e =>
      (v, some (Error.InvalidValueForType
        ("couldn't unmarshal metadata from JSON: " ++ e.Message)))
    | none => (v, none)

/-- Go `func (v PersistentVolume) MarshalJSON() ([]byte, error)`.  The last
`json.Marshal(sourceObj)` is applied to a map of decoded JSON values and cannot
fail, so its error branch is never taken. -/
def MarshalJSON (E : Env) (v : PersistentVolume E) : Option JSON × Option Error :=
  match PersistentVolumeMeta.jsonMarshal E v.PersistentVolumeMeta with
  | Except.error e =>
    (none, some (Error.InvalidInstance ("couldn't marshal metadata to JSON: " ++ e.Message)))
  | Except.ok b =>
    match json.ofMarshalJSON (PersistentVolumeSource.MarshalJSON E v.PersistentVolumeSource) with
    | Except.error err => (none, some err)
    | Except.ok bb =>
      match json.UnmarshalObj b [] with
      | Except.error e =>
        (none, some (Error.InvalidValueForType
          ("couldn't convert metadata to dictionary: " ++ e.Message)))
      | Except.ok metaObj =>
        match json.UnmarshalObj bb [] with
        | Except.error e =>
          (none, some (Error.InvalidValueForType
            ("couldn't convert volume source to dictionary: " ++ e.Message)))
        | Except.ok sourceObj =>
          let sourceObj := metaObj.foldl (fun o kv => o.set kv.1 kv.2) sourceObj
          json.MarshalObj sourceObj

end PersistentVolume

/-! ## The token table of the specification -/

namespace Spec

/-- The token table as the specification gives it, read from token to mode:
`"ro"` is read-only-many, `"rw"` is read-write-many, `"rw-once"` is
read-write-once. -/
def modeOfToken (t : String) : PersistentVolumeAccessMode :=
  if t = "ro" then v1.ReadOnlyMany
  else if t = "rw" then v1.ReadWriteMany
  else v1.ReadWriteOnce

/-- The token table as the specification gives it, read from mode to token. -/
def tokenOfMode (m : PersistentVolumeAccessMode) : String :=
  if m = v1.ReadOnlyMany then "ro"
  else if m = v1.ReadWriteMany then "rw"
  else "rw-once"

/-- Membership in the closed set of tokens. -/
def IsToken (t : String) : Prop := t = "ro" ∨ t = "rw" ∨ t = "rw-once"

/-- Membership in the closed set of access modes. -/
def IsMode (m : PersistentVolumeAccessMode) : Prop :=
  m = v1.ReadOnlyMany ∨ m = v1.ReadWriteMany ∨ m = v1.ReadWriteOnce

instance (t : String) : Decidable (IsToken t) := by unfold IsToken; infer_instance
instance (m : PersistentVolumeAccessMode) : Decidable (IsMode m) := by
  unfold IsMode; infer_instance

end Spec

/-! ## The last-colon rule of the specification -/

namespace Spec

/-- The text of `s` after its rightmost colon (all of `s` when it has none). -/
def afterLastColon (s : String) : String :=
  String.mk (s.data.reverse.takeWhile (fun c => c != ':')).reverse

/-- The text of `s` before its rightmost colon (empty when it has none). -/
def beforeLastColon (s : String) : String :=
  String.mk ((s.data.reverse.dropWhile (fun c => c != ':')).drop 1).reverse

end Spec

/-! ## A record with a present, empty access-mode list -/

/-- The record `PersistentVolume{PersistentVolumeMeta{Name: "pv", AccessModes:
&AccessModes{}}, PersistentVolumeSource{RBD: &RBDPersistentVolume{CephMonitors:
[]string{"10.0.0.1:6789"}, RBDImage: "img"}}}`: exactly the RBD variant set, an
access-mode list that is present and has length zero. -/
def pvEmptyModes (E : Env) : PersistentVolume E :=
  { PersistentVolumeMeta :=
      { PersistentVolumeMeta.zero E with Name := "pv", AccessModes := some { Modes := [] } },
    PersistentVolumeSource :=
      { PersistentVolumeSource.zero E with
        RBD := some { RBDPersistentVolume.zero with
          CephMonitors := some ["10.0.0.1:6789"], RBDImage := "img" } } }

/-- The flat object `{"monitors": ["10.0.0.1:6789"], "image": "img", "vol_type":
"rbd", "name": "pv", "modes": ""}`. -/
def pvEmptyModesFlat : JSON :=
  JSON.obj [("monitors", JSON.arr [JSON.str "10.0.0.1:6789"]), ("image", JSON.str "img"),
    ("vol_type", JSON.str "rbd"), ("name", JSON.str "pv"), ("modes", JSON.str "")]

/-! ## An instance of the outside declarations -/

/-- A stand-in for a type of another package: its values are kept as the JSON
they are written as. -/
def JsonType.raw : JsonType :=
  { T := JSON, zero := JSON.null, Marshal := fun j => Except.ok j,
    Unmarshal := fun data _ => json.Outcome.next data none }

/-- A stand-in for a volume type decoded from the flat object and the selector:
it keeps the selector, requires nothing, and encodes to its tag and selector. -/
def VolumeDecl.selectorOnly (tag : String) : VolumeDecl :=
  { T := List String, zero := [],
    Unmarshal := fun _ _ selector => (selector, none),
    Marshal := fun s => (some { Type_ := tag, Selector := s, ExtraFields := [] }, none) }

/-- A stand-in for a volume type decoded from the selector alone. -/
def SelectorVolumeDecl.selectorOnly (tag : String) : SelectorVolumeDecl :=
  { T := List String, zero := [],
    Unmarshal := fun _ selector => (selector, none),
    Marshal := fun s => (some { Type_ := tag, Selector := s, ExtraFields := [] }, none) }

/-- One instance of the outside declarations, with sixteen distinct tags.  It
shows that the assumptions collected in `Env` can be met. -/
def Env.sample : Env :=
  { Quantity := JsonType.raw
    ObjectReference := JsonType.raw
    PersistentVolumeStatus := JsonType.raw
    GcePDVolume := VolumeDecl.selectorOnly "gce_pd"
    AwsEBSVolume := VolumeDecl.selectorOnly "aws_ebs"
    HostPathVolume := SelectorVolumeDecl.selectorOnly "host_path"
    GlusterfsVolume := VolumeDecl.selectorOnly "glusterfs"
    NFSVolume := SelectorVolumeDecl.selectorOnly "nfs"
    ISCSIVolume := VolumeDecl.selectorOnly "iscsi"
    CinderVolume := VolumeDecl.selectorOnly "cinder"
    FibreChannelVolume := VolumeDecl.selectorOnly "fc"
    FlockerVolume := SelectorVolumeDecl.selectorOnly "flocker"
    FlexVolume := VolumeDecl.selectorOnly "flex"
    VsphereVolume := VolumeDecl.selectorOnly "vsphere"
    QuobyteVolume := VolumeDecl.selectorOnly "quobyte"
    AzureDiskVolume := VolumeDecl.selectorOnly "azure_disk"
    PhotonPDVolume := SelectorVolumeDecl.selectorOnly "photon"
    PortworxVolume := VolumeDecl.selectorOnly "portworx"
    VolumeTypeGcePD := "gce_pd"
    VolumeTypeAwsEBS := "aws_ebs"
    VolumeTypeHostPath := "host_path"
    VolumeTypeGlusterfs := "glusterfs"
    VolumeTypeNFS := "nfs"
    VolumeTypeISCSI := "iscsi"
    VolumeTypeCinder := "cinder"
    VolumeTypeFibreChannel := "fc"
    VolumeTypeFlocker := "flocker"
    VolumeTypeFlex := "flex"
    VolumeTypeVsphere := "vsphere"
    VolumeTypeQuobyte := "quobyte"
    VolumeTypeAzureDisk := "azure_disk"
    VolumeTypePhotonPD := "photon"
    VolumeTypePortworx := "portworx"
    tags_distinct := by decide }

/-- A record with exactly the RBD variant set and a non-empty access-mode
list; it differs from `pvEmptyModes` in having more fields filled in. -/
def pvTwoModes (E : Env) : PersistentVolume E :=
  { PersistentVolumeMeta :=
      { PersistentVolumeMeta.zero E with
        Name := "pv", Labels := [("tier", "db")],
        AccessModes := some { Modes := [v1.ReadOnlyMany, v1.ReadWriteOnce] },
        ReclaimPolicy := "retain" },
    PersistentVolumeSource :=
      { PersistentVolumeSource.zero E with
        RBD := some { RBDPersistentVolume.zero with
          CephMonitors := some ["10.0.0.1:6789", "10.0.0.2:6789"], RBDImage := "img",
          RBDPool := "pool", SecretRef := some { Name := "key", Namespace := "ceph" },
          ReadOnly := true } } }

/-! ## Counting and selecting variants -/

namespace Spec

/-- The tags of the sixteen variants, in the declaration order of the fields of
`PersistentVolumeSource` (which is also the order of the cases of `Unmarshal`
and of the `if` statements of `MarshalJSON`). -/
def tags (E : Env) : List String :=
  [E.VolumeTypeGcePD, E.VolumeTypeAwsEBS, E.VolumeTypeHostPath, E.VolumeTypeGlusterfs,
    E.VolumeTypeNFS, E.VolumeTypeISCSI, E.VolumeTypeCinder, E.VolumeTypeFibreChannel,
    E.VolumeTypeFlocker, E.VolumeTypeFlex, E.VolumeTypeVsphere, E.VolumeTypeQuobyte,
    E.VolumeTypeAzureDisk, E.VolumeTypePhotonPD, E.VolumeTypePortworx, VolumeTypeRBD]

/-- For each of the sixteen variant fields, in declaration order, whether it is
non-absent. -/
def setFields (E : Env) (v : PersistentVolumeSource E) : List Bool :=
  [v.GcePD.isSome, v.AwsEBS.isSome, v.HostPath.isSome, v.Glusterfs.isSome, v.NFS.isSome,
    v.ISCSI.isSome, v.Cinder.isSome, v.FibreChannel.isSome, v.Flocker.isSome, v.Flex.isSome,
    v.Vsphere.isSome, v.Quobyte.isSome, v.AzureDisk.isSome, v.PhotonPD.isSome,
    v.Portworx.isSome, v.RBD.isSome]

/-- The number of variant fields that are non-absent. -/
def variantCount (E : Env) (v : PersistentVolumeSource E) : Nat :=
  (setFields E v).count true

/-- The result of `Marshal` on the last non-absent variant in declaration
order, found by looking from the last field (RBD) back to the first (GcePD);
`(nil, nil)` when no variant is set. -/
def lastMarshal (E : Env) (v : PersistentVolumeSource E) :
    Option MarshalledVolume × Option Error :=
  match v.RBD with
  | some x => RBDPersistentVolume.Marshal x
  | none =>
  match v.Portworx with
  | some x => E.PortworxVolume.Marshal x
  | none =>
  match v.PhotonPD with
  | some x => E.PhotonPDVolume.Marshal x
  | none =>
  match v.AzureDisk with
  | some x => E.AzureDiskVolume.Marshal x
  | none =>
  match v.Quobyte with
  | some x => E.QuobyteVolume.Marshal x
  | none =>
  match v.Vsphere with
  | some x => E.VsphereVolume.Marshal x
  | none =>
  match v.Flex with
  | some x => E.FlexVolume.Marshal x
  | none =>
  match v.Flocker with
  | some x => E.FlockerVolume.Marshal x
  | none =>
  match v.FibreChannel with
  | some x => E.FibreChannelVolume.Marshal x
  | none =>
  match v.Cinder with
  | some x => E.CinderVolume.Marshal x
  | none =>
  match v.ISCSI with
  | some x => E.ISCSIVolume.Marshal x
  | none =>
  match v.NFS with
  | some x => E.NFSVolume.Marshal x
  | none =>
  match v.Glusterfs with
  | some x => E.GlusterfsVolume.Marshal x
  | none =>
  match v.HostPath with
  | some x => E.HostPathVolume.Marshal x
  | none =>
  match v.AwsEBS with
  | some x => E.AwsEBSVolume.Marshal x
  | none =>
  match v.GcePD with
  | some x => E.GcePDVolume.Marshal x
  | none => (none, none)

/-- The source that keeps only the last non-absent variant field of `v` in
declaration order and has every other field absent. -/
def keepLast (E : Env) (v : PersistentVolumeSource E) : PersistentVolumeSource E :=
  if v.RBD.isSome then { PersistentVolumeSource.zero E with RBD := v.RBD }
  else if v.Portworx.isSome then { PersistentVolumeSource.zero E with Portworx := v.Portworx }
  else if v.PhotonPD.isSome then { PersistentVolumeSource.zero E with PhotonPD := v.PhotonPD }
  else if v.AzureDisk.isSome then
    { PersistentVolumeSource.zero E with AzureDisk := v.AzureDisk }
  else if v.Quobyte.isSome then { PersistentVolumeSource.zero E with Quobyte := v.Quobyte }
  else if v.Vsphere.isSome then { PersistentVolumeSource.zero E with Vsphere := v.Vsphere }
  else if v.Flex.isSome then { PersistentVolumeSource.zero E with Flex := v.Flex }
  else if v.Flocker.isSome then { PersistentVolumeSource.zero E with Flocker := v.Flocker }
  else if v.FibreChannel.isSome then
    { PersistentVolumeSource.zero E with FibreChannel := v.FibreChannel }
  else if v.Cinder.isSome then { PersistentVolumeSource.zero E with Cinder := v.Cinder }
  else if v.ISCSI.isSome then { PersistentVolumeSource.zero E with ISCSI := v.ISCSI }
  else if v.NFS.isSome then { PersistentVolumeSource.zero E with NFS := v.NFS }
  else if v.Glusterfs.isSome then
    { PersistentVolumeSource.zero E with Glusterfs := v.Glusterfs }
  else if v.HostPath.isSome then { PersistentVolumeSource.zero E with HostPath := v.HostPath }
  else if v.AwsEBS.isSome then { PersistentVolumeSource.zero E with AwsEBS := v.AwsEBS }
  else { PersistentVolumeSource.zero E with GcePD := v.GcePD }

end Spec

/-- A stand-in for a volume type whose `Marshal` always fails. -/
def VolumeDecl.failing : VolumeDecl :=
  { T := Unit, zero := (),
    Unmarshal := fun _ _ _ => ((), none),
    Marshal := fun _ => (none, some (Error.InvalidInstance "cannot marshal")) }

/-- The instance `Env.sample` with a GcePD volume type whose `Marshal` fails. -/
def Env.failingGcePD : Env :=
  { Env.sample with GcePDVolume := VolumeDecl.failing }

/-- A source with two variants set, GcePD (first in declaration order) and RBD
(last). -/
def twoVariants : PersistentVolumeSource Env.sample :=
  { PersistentVolumeSource.zero Env.sample with
    GcePD := some ["disk"],
    RBD := some { RBDPersistentVolume.zero with
      CephMonitors := some ["10.0.0.1:6789"], RBDImage := "img" } }

/-- The same two variants where the `Marshal` of the first one fails. -/
def twoVariantsFirstFailing : PersistentVolumeSource Env.failingGcePD :=
  { PersistentVolumeSource.zero Env.failingGcePD with
    GcePD := some (),
    RBD := some { RBDPersistentVolume.zero with
      CephMonitors := some ["10.0.0.1:6789"], RBDImage := "img" } }

/-! ## What a decode does to the variant fields -/

namespace Spec

/-- The variant field that corresponds to `tag` is non-absent in `v`. -/
def TagFieldSet (E : Env) (v : PersistentVolumeSource E) (tag : String) : Prop :=
  (tag = E.VolumeTypeGcePD ∧ v.GcePD.isSome) ∨
  (tag = E.VolumeTypeAwsEBS ∧ v.AwsEBS.isSome) ∨
  (tag = E.VolumeTypeHostPath ∧ v.HostPath.isSome) ∨
  (tag = E.VolumeTypeGlusterfs ∧ v.Glusterfs.isSome) ∨
  (tag = E.VolumeTypeNFS ∧ v.NFS.isSome) ∨
  (tag = E.VolumeTypeISCSI ∧ v.ISCSI.isSome) ∨
  (tag = E.VolumeTypeCinder ∧ v.Cinder.isSome) ∨
  (tag = E.VolumeTypeFibreChannel ∧ v.FibreChannel.isSome) ∨
  (tag = E.VolumeTypeFlocker ∧ v.Flocker.isSome) ∨
  (tag = E.VolumeTypeFlex ∧ v.Flex.isSome) ∨
  (tag = E.VolumeTypeVsphere ∧ v.Vsphere.isSome) ∨
  (tag = E.VolumeTypeQuobyte ∧ v.Quobyte.isSome) ∨
  (tag = E.VolumeTypeAzureDisk ∧ v.AzureDisk.isSome) ∨
  (tag = E.VolumeTypePhotonPD ∧ v.PhotonPD.isSome) ∨
  (tag = E.VolumeTypePortworx ∧ v.Portworx.isSome) ∨
  (tag = VolumeTypeRBD ∧ v.RBD.isSome)

/-- The source `v'` is `v` with the variant field that corresponds to `tag`
replaced by some volume, every other field as in `v`; for a tag that is none of
the sixteen, `v'` is `v`. -/
def ReplacesTagField (E : Env) (v v' : PersistentVolumeSource E) (tag : String) : Prop :=
  (tag ∉ tags E ∧ v' = v) ∨
  (tag = E.VolumeTypeGcePD ∧ ∃ x, v' = { v with GcePD := some x }) ∨
  (tag = E.VolumeTypeAwsEBS ∧ ∃ x, v' = { v with AwsEBS := some x }) ∨
  (tag = E.VolumeTypeHostPath ∧ ∃ x, v' = { v with HostPath := some x }) ∨
  (tag = E.VolumeTypeGlusterfs ∧ ∃ x, v' = { v with Glusterfs := some x }) ∨
  (tag = E.VolumeTypeNFS ∧ ∃ x, v' = { v with NFS := some x }) ∨
  (tag = E.VolumeTypeISCSI ∧ ∃ x, v' = { v with ISCSI := some x }) ∨
  (tag = E.VolumeTypeCinder ∧ ∃ x, v' = { v with Cinder := some x }) ∨
  (tag = E.VolumeTypeFibreChannel ∧ ∃ x, v' = { v with FibreChannel := some x }) ∨
  (tag = E.VolumeTypeFlocker ∧ ∃ x, v' = { v with Flocker := some x }) ∨
  (tag = E.VolumeTypeFlex ∧ ∃ x, v' = { v with Flex := some x }) ∨
  (tag = E.VolumeTypeVsphere ∧ ∃ x, v' = { v with Vsphere := some x }) ∨
  (tag = E.VolumeTypeQuobyte ∧ ∃ x, v' = { v with Quobyte := some x }) ∨
  (tag = E.VolumeTypeAzureDisk ∧ ∃ x, v' = { v with AzureDisk := some x }) ∨
  (tag = E.VolumeTypePhotonPD ∧ ∃ x, v' = { v with PhotonPD := some x }) ∨
  (tag = E.VolumeTypePortworx ∧ ∃ x, v' = { v with Portworx := some x }) ∨
  (tag = VolumeTypeRBD ∧ ∃ x, v' = { v with RBD := some x })

end Spec

/-! ## A record whose variant and metadata share a key -/

/-- A stand-in for a volume type that keeps a flat object and encodes to it. -/
def VolumeDecl.flat (tag : String) : VolumeDecl :=
  { T := Obj, zero := [],
    Unmarshal := fun _ obj _ => (obj, none),
    Marshal := fun s => (some { Type_ := tag, Selector := [], ExtraFields := s }, none) }

/-- The instance `Env.sample` with a GcePD volume type that encodes to the flat
object it keeps. -/
def Env.flatGcePD : Env :=
  { Env.sample with GcePDVolume := VolumeDecl.flat "gce_pd" }

/-- A record whose variant's flat object holds "storage_class" with the value
"slow" and whose metadata holds the same key with the value "fast". -/
def pvSharedKey : PersistentVolume Env.flatGcePD :=
  { PersistentVolumeMeta :=
      { PersistentVolumeMeta.zero Env.flatGcePD with Name := "pv", StorageClass := "fast" },
    PersistentVolumeSource :=
      { PersistentVolumeSource.zero Env.flatGcePD with
        GcePD := some [("storage_class", JSON.str "slow"), ("disk", JSON.str "d1")] } }

/-! ## Go strings that are valid UTF-8 -/

/-- The Go string holds valid UTF-8: its bytes are the encoding of some text. -/
def GoString.IsValidUTF8 (s : GoString) : Prop := ∃ t : String, s = GoString.ofString t

/-! ## What a decode stores in the variant field -/

namespace Spec

/-- The source `v'` is `v` with the variant field that corresponds to `tag`
holding the volume the case of `Unmarshal` stores for it, every other field as
in `v`: a new zero-valued volume of the variant's type, as the variant's
decoder leaves it when it is run on the new volume with `obj` and `selector`
(the selector alone for the four variants decoded from it), whatever the field
held before.  For a tag that is none of the sixteen, `v'` is `v`. -/
def StoresNewVolume (E : Env) (v v' : PersistentVolumeSource E) (obj : Obj) (tag : String)
    (selector : List String) : Prop :=
  (tag ∉ tags E ∧ v' = v) ∨
  (tag = E.VolumeTypeGcePD ∧
    v' = { v with GcePD := some (E.GcePDVolume.Unmarshal E.GcePDVolume.zero obj selector).1 }) ∨
  (tag = E.VolumeTypeAwsEBS ∧
    v' = { v with AwsEBS := some (E.AwsEBSVolume.Unmarshal E.AwsEBSVolume.zero obj selector).1 }) ∨
  (tag = E.VolumeTypeHostPath ∧
    v' = { v with HostPath := some (E.HostPathVolume.Unmarshal E.HostPathVolume.zero selector).1 }) ∨
  (tag = E.VolumeTypeGlusterfs ∧
    v' = { v with Glusterfs := some (E.GlusterfsVolume.Unmarshal E.GlusterfsVolume.zero obj selector).1 }) ∨
  (tag = E.VolumeTypeNFS ∧
    v' = { v with NFS := some (E.NFSVolume.Unmarshal E.NFSVolume.zero selector).1 }) ∨
  (tag = E.VolumeTypeISCSI ∧
    v' = { v with ISCSI := some (E.ISCSIVolume.Unmarshal E.ISCSIVolume.zero obj selector).1 }) ∨
  (tag = E.VolumeTypeCinder ∧
    v' = { v with Cinder := some (E.CinderVolume.Unmarshal E.CinderVolume.zero obj selector).1 }) ∨
  (tag = E.VolumeTypeFibreChannel ∧
    v' = { v with FibreChannel := some (E.FibreChannelVolume.Unmarshal E.FibreChannelVolume.zero obj selector).1 }) ∨
  (tag = E.VolumeTypeFlocker ∧
    v' = { v with Flocker := some (E.FlockerVolume.Unmarshal E.FlockerVolume.zero selector).1 }) ∨
  (tag = E.VolumeTypeFlex ∧
    v' = { v with Flex := some (E.FlexVolume.Unmarshal E.FlexVolume.zero obj selector).1 }) ∨
  (tag = E.VolumeTypeVsphere ∧
    v' = { v with Vsphere := some (E.VsphereVolume.Unmarshal E.VsphereVolume.zero obj selector).1 }) ∨
  (tag = E.VolumeTypeQuobyte ∧
    v' = { v with Quobyte := some (E.QuobyteVolume.Unmarshal E.QuobyteVolume.zero obj selector).1 }) ∨
  (tag = E.VolumeTypeAzureDisk ∧
    v' = { v with AzureDisk := some (E.AzureDiskVolume.Unmarshal E.AzureDiskVolume.zero obj selector).1 }) ∨
  (tag = E.VolumeTypePhotonPD ∧
    v' = { v with PhotonPD := some (E.PhotonPDVolume.Unmarshal E.PhotonPDVolume.zero selector).1 }) ∨
  (tag = E.VolumeTypePortworx ∧
    v' = { v with Portworx := some (E.PortworxVolume.Unmarshal E.PortworxVolume.zero obj selector).1 }) ∨
  (tag = VolumeTypeRBD ∧
    v' = { v with RBD := some (RBDPersistentVolume.Unmarshal RBDPersistentVolume.zero obj selector).1 })

end Spec

/-- A source with the RBD variant set to a volume with an image. -/
def sourceWithRBD : PersistentVolumeSource Env.sample :=
  { PersistentVolumeSource.zero Env.sample with
    RBD := some { RBDPersistentVolume.zero with
      CephMonitors := some ["10.0.0.1:6789"], RBDImage := "img" } }

/-! # Theorems -/

/-! ## Facts about `strings.Split` and `strings.Join` -/

namespace strings

theorem splitChars_ne_nil (sep : Char) (cs : List Char) : splitChars sep cs ≠ [] := by
  induction cs with
  | nil => simp [splitChars]
  | cons c cs ih =>
    unfold splitChars
    split
    · simp
    · split <;> simp

/-- A sequence without the separator is a single piece. -/
theorem splitChars_of_not_mem (sep : Char) (p : List Char) (h : sep ∉ p) :
    splitChars sep p = [p] := by
  induction p with
  | nil => rfl
  | cons c cs ih =>
    have hc : c ≠ sep := fun e => h (by simp [e])
    have hcs : sep ∉ cs := fun e => h (by simp [e])
    simp [splitChars, hc, ih hcs]

/-- The first separator ends the first piece. -/
theorem splitChars_append_sep (sep : Char) (p rest : List Char) (h : sep ∉ p) :
    splitChars sep (p ++ sep :: rest) = p :: splitChars sep rest := by
  induction p with
  | nil => simp [splitChars]
  | cons c cs ih =>
    have hc : c ≠ sep := fun e => h (by simp [e])
    have hcs : sep ∉ cs := fun e => h (by simp [e])
    simp [splitChars, hc, ih hcs]

/-- Splitting undoes joining, for a non-empty list of separator-free pieces. -/
theorem splitChars_joinChars (sep : Char) (ps : List (List Char)) (hne : ps ≠ [])
    (h : ∀ p ∈ ps, sep ∉ p) : splitChars sep (joinChars [sep] ps) = ps := by
  induction ps with
  | nil => exact absurd rfl hne
  | cons p qs ih =>
    cases qs with
    | nil => simpa [joinChars] using splitChars_of_not_mem sep p (h p (by simp))
    | cons q qs =>
      have hp : sep ∉ p := h p (by simp)
      have ih2 := ih (by simp) (fun x hx => h x (List.mem_cons_of_mem _ hx))
      simp only [joinChars, List.append_assoc, List.singleton_append]
      rw [splitChars_append_sep sep p _ hp, ih2]

/-- Joining undoes splitting. -/
theorem joinChars_splitChars (sep : Char) (cs : List Char) :
    joinChars [sep] (splitChars sep cs) = cs := by
  induction cs with
  | nil => rfl
  | cons c cs ih =>
    unfold splitChars
    split
    · rename_i hc
      cases hs : splitChars sep cs with
      | nil => exact absurd hs (splitChars_ne_nil sep cs)
      | cons q qs =>
        rw [hs] at ih
        simp [joinChars, ih, hc]
    · cases hs : splitChars sep cs with
      | nil => exact absurd hs (splitChars_ne_nil sep cs)
      | cons q qs =>
        rw [hs] at ih
        cases qs with
        | nil => simpa [joinChars] using ih
        | cons r rs =>
          simp only [joinChars, List.append_assoc, List.cons_append] at ih ⊢
          rw [ih]

/-- No piece of a split contains the separator. -/
theorem splitChars_sep_free (sep : Char) (cs : List Char) :
    ∀ p ∈ splitChars sep cs, sep ∉ p := by
  induction cs with
  | nil => simp [splitChars]
  | cons c cs ih =>
    unfold splitChars
    split
    · intro p hp
      rcases List.mem_cons.1 hp with rfl | hp
      · simp
      · exact ih p hp
    · rename_i hc
      cases hs : splitChars sep cs with
      | nil => exact absurd hs (splitChars_ne_nil sep cs)
      | cons q qs =>
        rw [hs] at ih
        intro p hp
        rcases List.mem_cons.1 hp with rfl | hp
        · have hq := ih q (by simp)
          intro hmem
          rcases List.mem_cons.1 hmem with e | e
          · exact hc e.symm
          · exact hq e
        · exact ih p (List.mem_cons_of_mem _ hp)

/-- Splitting with `strings.Split` inverts `strings.Join` on a non-empty list of
pieces none of which contains the separator. -/
theorem Split_Join (sep : Char) (elems : List String) (hne : elems ≠ [])
    (h : ∀ e ∈ elems, sep ∉ e.data) :
    Split (Join elems (String.mk [sep])) sep = elems := by
  unfold Split Join
  simp only
  rw [splitChars_joinChars sep (elems.map String.data) (by simpa using hne)
    (by intro p hp; rcases List.mem_map.1 hp with ⟨e, he, rfl⟩; exact h e he)]
  simp [List.map_map, Function.comp_def]

/-- The pieces of `strings.Split` joined with the separator give the input back. -/
theorem Join_Split (sep : Char) (s : String) :
    Join (Split s sep) (String.mk [sep]) = s := by
  unfold Split Join
  simp only [List.map_map]
  have : (String.data ∘ String.mk) = (id : List Char → List Char) := rfl
  rw [this, List.map_id, joinChars_splitChars]

/-- No piece returned by `strings.Split` contains the separator. -/
theorem Split_sep_free (sep : Char) (s : String) : ∀ p ∈ Split s sep, sep ∉ p.data := by
  intro p hp
  rcases List.mem_map.1 hp with ⟨q, hq, rfl⟩
  exact splitChars_sep_free sep s.data q hq

theorem Split_ne_nil (sep : Char) (s : String) : Split s sep ≠ [] := by
  unfold Split
  simpa using splitChars_ne_nil sep s.data

end strings

/-! ## The access-mode codec -/

theorem List.take_succ_set_self {α : Type} (out : List α) (i : Nat) (v : α)
    (h : i < out.length) : (out.set i v).take (i + 1) = out.take i ++ [v] := by
  rw [List.set_eq_take_append_cons_drop, if_pos h]
  have hl : (List.take i out).length = i := by simp; omega
  rw [List.take_append_eq_append_take]
  simp [hl, List.take_take]

namespace AccessModes

/-- On valid tokens the decode loop fills the slots from `i` on with the mapped
modes and returns no error. -/
theorem InitFromString_loop_ok (s : String) (ts : List String) :
    ∀ (out : List PersistentVolumeAccessMode) (i : Nat),
      (∀ t ∈ ts, Spec.IsToken t) → out.length = i + ts.length →
      InitFromString.loop s out i ts = (out.take i ++ ts.map Spec.modeOfToken, none) := by
  induction ts with
  | nil =>
    intro out i _ hlen
    simp [InitFromString.loop, List.take_of_length_le (show out.length ≤ i by simp at hlen; omega)]
  | cons t ts ih =>
    intro out i hts hlen
    have hi : i < out.length := by simp at hlen; omega
    have htl : ∀ u ∈ ts, Spec.IsToken u := fun u hu => hts u (List.mem_cons_of_mem _ hu)
    have step : ∀ v, (out.set i v).length = (i + 1) + ts.length := by
      intro v; simp at hlen ⊢; omega
    rcases hts t (by simp) with h | h | h <;> subst h
    · rw [InitFromString.loop, if_pos rfl, ih _ _ htl (step _), List.take_succ_set_self _ _ _ hi]
      simp [Spec.modeOfToken]
    · rw [InitFromString.loop, if_neg (by decide), if_pos rfl, ih _ _ htl (step _),
        List.take_succ_set_self _ _ _ hi]
      simp [Spec.modeOfToken]
    · rw [InitFromString.loop, if_neg (by decide), if_neg (by decide), if_pos rfl,
        ih _ _ htl (step _), List.take_succ_set_self _ _ _ hi]
      simp [Spec.modeOfToken]

/-- The error of the decode loop: none when every piece is a token, the
invalid-value error quoting the input otherwise. -/
theorem InitFromString_loop_err (s : String) (ts : List String) :
    ∀ (out : List PersistentVolumeAccessMode) (i : Nat),
      (InitFromString.loop s out i ts).2 =
        if ∀ t ∈ ts, Spec.IsToken t then none
        else some (Error.InvalidValue ("couldn't parse (" ++ s ++ ")")) := by
  induction ts with
  | nil => intro out i; simp [InitFromString.loop]
  | cons t ts ih =>
    intro out i
    unfold InitFromString.loop
    by_cases h1 : t = "ro"
    · simp [h1, ih, Spec.IsToken]
    · by_cases h2 : t = "rw"
      · simp [h2, ih, Spec.IsToken]
      · by_cases h3 : t = "rw-once"
        · simp [h3, ih, Spec.IsToken]
        · simp [h1, h2, h3, Spec.IsToken]

/-- On valid modes the encode loop fills the slots from `i` on with the mapped
tokens and joins them. -/
theorem ToString_loop_ok (ms : List PersistentVolumeAccessMode) :
    ∀ (modes : List String) (i : Nat),
      (∀ m ∈ ms, Spec.IsMode m) → modes.length = i + ms.length →
      ToString.loop modes i ms =
        (strings.Join (modes.take i ++ ms.map Spec.tokenOfMode) ",", none) := by
  induction ms with
  | nil =>
    intro modes i _ hlen
    simp [ToString.loop, List.take_of_length_le (show modes.length ≤ i by simp at hlen; omega)]
  | cons m ms ih =>
    intro modes i hms hlen
    have hi : i < modes.length := by simp at hlen; omega
    have htl : ∀ u ∈ ms, Spec.IsMode u := fun u hu => hms u (List.mem_cons_of_mem _ hu)
    have step : ∀ v, (modes.set i v).length = (i + 1) + ms.length := by
      intro v; simp at hlen ⊢; omega
    rcases hms m (by simp) with h | h | h <;> subst h
    · rw [ToString.loop, if_pos rfl, ih _ _ htl (step _), List.take_succ_set_self _ _ _ hi]
      simp [Spec.tokenOfMode]
    · rw [ToString.loop, if_neg (by decide), if_pos rfl, ih _ _ htl (step _),
        List.take_succ_set_self _ _ _ hi]
      simp [Spec.tokenOfMode, show v1.ReadWriteMany ≠ v1.ReadOnlyMany by decide]
    · rw [ToString.loop, if_neg (by decide), if_neg (by decide), if_pos rfl,
        ih _ _ htl (step _), List.take_succ_set_self _ _ _ hi]
      simp [Spec.tokenOfMode, show v1.ReadWriteOnce ≠ v1.ReadOnlyMany by decide,
        show v1.ReadWriteOnce ≠ v1.ReadWriteMany by decide]

/-- The outcome of the encode loop when some element is outside the closed set:
the empty string and an invalid-instance error naming the first such element. -/
theorem ToString_loop_err (ms : List PersistentVolumeAccessMode) :
    ∀ (modes : List String) (i : Nat), (∃ m ∈ ms, ¬ Spec.IsMode m) →
      ∃ m ∈ ms, ¬ Spec.IsMode m ∧
        ToString.loop modes i ms = ("", some (Error.InvalidInstance m)) := by
  induction ms with
  | nil => intro _ _ h; simp at h
  | cons m ms ih =>
    intro modes i h
    by_cases hm : Spec.IsMode m
    · have hrest : ∃ u ∈ ms, ¬ Spec.IsMode u := by
        rcases h with ⟨u, hu, hnu⟩
        rcases List.mem_cons.1 hu with rfl | hu
        · exact absurd hm hnu
        · exact ⟨u, hu, hnu⟩
      unfold ToString.loop
      rcases hm with e | e | e <;> subst e
      · rw [if_pos rfl]
        rcases ih (modes.set i "ro") (i + 1) hrest with ⟨u, hu, hnu, hr⟩
        exact ⟨u, List.mem_cons_of_mem _ hu, hnu, hr⟩
      · rw [if_neg (by decide), if_pos rfl]
        rcases ih (modes.set i "rw") (i + 1) hrest with ⟨u, hu, hnu, hr⟩
        exact ⟨u, List.mem_cons_of_mem _ hu, hnu, hr⟩
      · rw [if_neg (by decide), if_neg (by decide), if_pos rfl]
        rcases ih (modes.set i "rw-once") (i + 1) hrest with ⟨u, hu, hnu, hr⟩
        exact ⟨u, List.mem_cons_of_mem _ hu, hnu, hr⟩
    · refine ⟨m, by simp, hm, ?_⟩
      unfold Spec.IsMode at hm
      push_neg at hm
      simp [ToString.loop, hm.1, hm.2.1, hm.2.2]

end AccessModes

/-- No token of the table contains the separator `,`. -/
theorem Spec.IsToken.comma_free {t : String} (h : Spec.IsToken t) : ',' ∉ t.data := by
  rcases h with h | h | h <;> subst h <;> decide

/-- C2: for every non-empty list of tokens drawn from "ro", "rw", "rw-once",
`InitFromString` applied to the tokens joined with ',' returns no error and sets
`Modes` to the tokens mapped through the table, in the same order. -/
theorem C2_InitFromString_follows_token_table (a : AccessModes) (ts : List String)
    (hne : ts ≠ []) (hts : ∀ t ∈ ts, Spec.IsToken t) :
    AccessModes.InitFromString a (strings.Join ts ",") =
      ({ Modes := ts.map Spec.modeOfToken }, none) := by
  have hsplit : strings.Split (strings.Join ts ",") ',' = ts :=
    strings.Split_Join ',' ts hne (fun e he => (hts e he).comma_free)
  have hlen : ts.length ≠ 0 := by
    cases ts with
    | nil => exact absurd rfl hne
    | cons _ _ => simp
  unfold AccessModes.InitFromString
  simp only [hsplit, hlen, if_false]
  rw [AccessModes.InitFromString_loop_ok _ ts _ 0 hts (by simp)]
  simp

/-- C2 at the tokens "ro", "rw", "rw-once": the string "ro,rw,rw-once" decodes
to read-only-many, read-write-many, read-write-once. -/
theorem C2_InitFromString_follows_token_table_witness :
    (["ro", "rw", "rw-once"] ≠ [] ∧ ∀ t ∈ ["ro", "rw", "rw-once"], Spec.IsToken t) ∧
    AccessModes.InitFromString ⟨[]⟩ "ro,rw,rw-once" =
      ({ Modes := [v1.ReadOnlyMany, v1.ReadWriteMany, v1.ReadWriteOnce] }, none) :=
  ⟨⟨by decide, by decide⟩,
    C2_InitFromString_follows_token_table ⟨[]⟩ ["ro", "rw", "rw-once"] (by decide) (by decide)⟩

/-- C3 (as the code behaves): `InitFromString("")` does not take the
`len(modes) == 0` branch, because `strings.Split("", ",")` has one piece, the
empty string; it returns the invalid-value error and leaves `Modes` with one
zero-valued element. -/
theorem C3_InitFromString_empty_string_is_rejected (a : AccessModes) :
    strings.Split "" ',' = [""] ∧
    AccessModes.InitFromString a "" =
      ({ Modes := [""] }, some (Error.InvalidValue "couldn't parse ()")) := by
  constructor <;> rfl

/-- C4: for every non-empty string, `InitFromString` returns an invalid-value
error exactly when some piece of the string split on ',' is not one of the
tokens "ro", "rw", "rw-once". -/
theorem C4_InitFromString_rejects_unknown_tokens (a : AccessModes) (s : String)
    (hs : s ≠ "") :
    (∃ msg, (AccessModes.InitFromString a s).2 = some (Error.InvalidValue msg)) ↔
      ∃ p ∈ strings.Split s ',', p ≠ "ro" ∧ p ≠ "rw" ∧ p ≠ "rw-once" := by
  have _ := hs
  have hlen : (strings.Split s ',').length ≠ 0 := by
    have := strings.Split_ne_nil ',' s
    cases h : strings.Split s ',' with
    | nil => exact absurd h this
    | cons _ _ => simp
  have herr : (AccessModes.InitFromString a s).2 =
      if ∀ t ∈ strings.Split s ',', Spec.IsToken t then none
      else some (Error.InvalidValue ("couldn't parse (" ++ s ++ ")")) := by
    unfold AccessModes.InitFromString
    simp only [hlen, if_false]
    exact AccessModes.InitFromString_loop_err s _ _ 0
  rw [herr]
  by_cases hall : ∀ t ∈ strings.Split s ',', Spec.IsToken t
  · rw [if_pos hall]
    constructor
    · rintro ⟨_, h⟩; exact absurd h (by simp)
    · rintro ⟨p, hp, h1, h2, h3⟩
      rcases hall p hp with h | h | h
      · exact absurd h h1
      · exact absurd h h2
      · exact absurd h h3
  · rw [if_neg hall]
    constructor
    · intro _
      push_neg at hall
      rcases hall with ⟨p, hp, hnp⟩
      unfold Spec.IsToken at hnp
      push_neg at hnp
      exact ⟨p, hp, hnp⟩
    · intro _
      exact ⟨_, rfl⟩

/-- C4 at the input "ro,,rw", whose middle piece is the empty string. -/
theorem C4_InitFromString_rejects_unknown_tokens_witness :
    "ro,,rw" ≠ "" ∧
    ((∃ msg, (AccessModes.InitFromString ⟨[]⟩ "ro,,rw").2 = some (Error.InvalidValue msg)) ↔
      ∃ p ∈ strings.Split "ro,,rw" ',', p ≠ "ro" ∧ p ≠ "rw" ∧ p ≠ "rw-once") :=
  ⟨by decide, C4_InitFromString_rejects_unknown_tokens ⟨[]⟩ "ro,,rw" (by decide)⟩

/-- The three inputs named with C4 are rejected with the invalid-value error. -/
theorem InitFromString_rejects_examples :
    (AccessModes.InitFromString ⟨[]⟩ "bogus").2 =
      some (Error.InvalidValue "couldn't parse (bogus)") ∧
    (AccessModes.InitFromString ⟨[]⟩ "ro,,rw").2 =
      some (Error.InvalidValue "couldn't parse (ro,,rw)") ∧
    (AccessModes.InitFromString ⟨[]⟩ "ro, rw").2 =
      some (Error.InvalidValue "couldn't parse (ro, rw)") := by
  decide

/-- On a sequence of valid modes `ToString` returns the joined tokens. -/
theorem AccessModes.ToString_of_valid (ms : List PersistentVolumeAccessMode)
    (hms : ∀ m ∈ ms, Spec.IsMode m) :
    AccessModes.ToString (some { Modes := ms }) =
      (strings.Join (ms.map Spec.tokenOfMode) ",", none) := by
  cases ms with
  | nil => rfl
  | cons m ms =>
    unfold AccessModes.ToString
    simp only [List.length_cons, Nat.add_one_ne_zero, if_false]
    rw [AccessModes.ToString_loop_ok (m :: ms) _ 0 hms (by simp)]
    simp

/-- C5: for every sequence of modes drawn from read-only-many, read-write-many,
read-write-once, `ToString` returns no error and the tokens "ro", "rw",
"rw-once" in the same order joined with ','; the empty sequence and the nil
receiver give the empty string. -/
theorem C5_ToString_follows_token_table (ms : List PersistentVolumeAccessMode)
    (hms : ∀ m ∈ ms, Spec.IsMode m) :
    AccessModes.ToString (some { Modes := ms }) =
      (strings.Join (ms.map Spec.tokenOfMode) ",", none) ∧
    AccessModes.ToString (some { Modes := [] }) = ("", none) ∧
    AccessModes.ToString none = ("", none) :=
  ⟨AccessModes.ToString_of_valid ms hms, rfl, rfl⟩

/-- C5 at the sequence read-only-many, read-write-many, read-write-once. -/
theorem C5_ToString_follows_token_table_witness :
    (∀ m ∈ [v1.ReadOnlyMany, v1.ReadWriteMany, v1.ReadWriteOnce], Spec.IsMode m) ∧
    (AccessModes.ToString
        (some { Modes := [v1.ReadOnlyMany, v1.ReadWriteMany, v1.ReadWriteOnce] }) =
      ("ro,rw,rw-once", none) ∧
    AccessModes.ToString (some { Modes := [] }) = ("", none) ∧
    AccessModes.ToString none = ("", none)) :=
  ⟨by decide,
    C5_ToString_follows_token_table [v1.ReadOnlyMany, v1.ReadWriteMany, v1.ReadWriteOnce]
      (by decide)⟩

/-- C6: for every sequence of mode values, `ToString` returns an
invalid-instance error exactly when some element is not one of read-only-many,
read-write-many, read-write-once; and whenever it returns an error the returned
string is empty. -/
theorem C6_ToString_fails_exactly_on_out_of_set (ms : List PersistentVolumeAccessMode) :
    ((∃ msg, (AccessModes.ToString (some { Modes := ms })).2 =
        some (Error.InvalidInstance msg)) ↔
      ∃ m ∈ ms, m ≠ v1.ReadOnlyMany ∧ m ≠ v1.ReadWriteMany ∧ m ≠ v1.ReadWriteOnce) ∧
    ((AccessModes.ToString (some { Modes := ms })).2 = none ∨
      (AccessModes.ToString (some { Modes := ms })).1 = "") := by
  by_cases hbad : ∃ m ∈ ms, ¬ Spec.IsMode m
  · have hne : ms.length ≠ 0 := by
      rcases hbad with ⟨m, hm, _⟩
      cases ms with
      | nil => simp at hm
      | cons _ _ => simp
    rcases AccessModes.ToString_loop_err ms (List.replicate ms.length "") 0 hbad with
      ⟨m, hm, hnm, hr⟩
    have hT : AccessModes.ToString (some { Modes := ms }) =
        ("", some (Error.InvalidInstance m)) := by
      unfold AccessModes.ToString
      simp only [hne, if_false]
      exact hr
    rw [hT]
    refine ⟨⟨fun _ => ?_, fun _ => ⟨m, rfl⟩⟩, Or.inr rfl⟩
    unfold Spec.IsMode at hnm
    push_neg at hnm
    exact ⟨m, hm, hnm⟩
  · push_neg at hbad
    have hT := AccessModes.ToString_of_valid ms hbad
    rw [hT]
    refine ⟨⟨fun ⟨_, h⟩ => absurd h (by simp), ?_⟩, Or.inl rfl⟩
    rintro ⟨m, hm, h1, h2, h3⟩
    rcases hbad m hm with h | h | h
    · exact absurd h h1
    · exact absurd h h2
    · exact absurd h h3

/-! ## The secret-reference codec -/

namespace regexp

/-- A repetition whose continuation always succeeds takes the longest run. -/
theorem star_total {α : Type} (cls : Char → Bool) (f : List Char → α) (rest : List Char) :
    ∀ pre : List Char,
      star cls (fun g _ => some (f g)) pre rest = some (f (pre ++ rest.takeWhile cls)) := by
  induction rest with
  | nil => intro pre; simp [star]
  | cons c cs ih =>
    intro pre
    unfold star
    by_cases hc : cls c = true
    · simp [hc, ih, List.takeWhile_cons]
    · simp [hc, List.takeWhile_cons]

end regexp

namespace secretRefRegexp

theorem group2_eq (g1 rest : List Char) :
    group2 g1 rest =
      some [String.mk (g1 ++ ':' :: rest.takeWhile regexp.notColon), String.mk g1,
        String.mk (rest.takeWhile regexp.notColon)] := by
  unfold group2
  rw [regexp.star_total regexp.notColon
    (fun g2 => [String.mk (g1 ++ ':' :: g2), String.mk g1, String.mk g2])]
  simp

theorem takeWhile_notColon_of_not_mem (l : List Char) (h : ':' ∉ l) :
    l.takeWhile regexp.notColon = l := by
  rw [List.takeWhile_eq_self_iff]
  intro c hc
  simp only [regexp.notColon, bne_iff_ne, ne_eq]
  rintro rfl
  exact h hc

/-- Without a colon in the remaining text the pattern cannot match, however
much the first repetition gives back. -/
theorem star_none_of_no_colon (cls : Char → Bool) (rest : List Char) (h : ':' ∉ rest) :
    ∀ pre : List Char, regexp.star cls colonThenGroup2 pre rest = none := by
  induction rest with
  | nil => intro pre; simp [regexp.star, colonThenGroup2]
  | cons c cs ih =>
    intro pre
    have hc : c ≠ ':' := fun e => h (by simp [e])
    have hcs : ':' ∉ cs := fun e => h (by simp [e])
    unfold regexp.star
    simp [ih hcs, colonThenGroup2, hc]

/-- The match on a text `ns ++ ":" ++ name` whose `ns` has no line feed and
whose `name` has no colon: group 1 is `ns`, group 2 is `name`. -/
theorem star_split (ns name : List Char) (hns : '\n' ∉ ns) (hname : ':' ∉ name) :
    ∀ pre : List Char,
      regexp.star regexp.dot colonThenGroup2 pre (ns ++ ':' :: name) =
        some [String.mk ((pre ++ ns) ++ ':' :: name), String.mk (pre ++ ns),
          String.mk name] := by
  induction ns with
  | nil =>
    intro pre
    simp only [List.nil_append, List.append_nil]
    unfold regexp.star
    have hd : regexp.dot ':' = true := by decide
    rw [if_pos hd, star_none_of_no_colon _ name hname]
    simp [colonThenGroup2, group2_eq, takeWhile_notColon_of_not_mem name hname]
  | cons c cs ih =>
    intro pre
    have hc : regexp.dot c = true := by
      simp only [regexp.dot, bne_iff_ne, ne_eq]
      rintro rfl
      exact hns (by simp)
    have hcs : '\n' ∉ cs := fun e => hns (by simp [e])
    simp only [List.cons_append]
    unfold regexp.star
    rw [if_pos hc, ih hcs]
    simp

theorem FindStringSubmatch_no_colon (s : String) (h : ':' ∉ s.data) :
    FindStringSubmatch s = [] := by
  unfold FindStringSubmatch
  rw [star_none_of_no_colon _ _ h]

theorem FindStringSubmatch_split (ns name : List Char) (hns : '\n' ∉ ns)
    (hname : ':' ∉ name) :
    FindStringSubmatch (String.mk (ns ++ ':' :: name)) =
      [String.mk (ns ++ ':' :: name), String.mk ns, String.mk name] := by
  unfold FindStringSubmatch
  simp only
  rw [star_split ns name hns hname]
  simp

end secretRefRegexp

namespace Spec

theorem takeWhile_append_stop {α : Type} (p : α → Bool) (a : List α) (x : α) (b : List α)
    (ha : ∀ y ∈ a, p y = true) (hx : p x = false) :
    (a ++ x :: b).takeWhile p = a ∧ (a ++ x :: b).dropWhile p = x :: b := by
  induction a with
  | nil => simp [List.takeWhile_cons, List.dropWhile_cons, hx]
  | cons y ys ih =>
    have hy : p y = true := ha y (by simp)
    have := ih (fun z hz => ha z (List.mem_cons_of_mem _ hz))
    simp [List.takeWhile_cons, List.dropWhile_cons, hy, this]

/-- On `ns ++ ":" ++ name` with a colon-free `name` the two projections of the
last-colon rule are `ns` and `name`. -/
theorem lastColon_of_split (ns name : List Char) (hname : ':' ∉ name) :
    beforeLastColon (String.mk (ns ++ ':' :: name)) = String.mk ns ∧
    afterLastColon (String.mk (ns ++ ':' :: name)) = String.mk name := by
  have hrev : (ns ++ ':' :: name).reverse = name.reverse ++ ':' :: ns.reverse := by simp
  have h := takeWhile_append_stop (fun c => c != ':') name.reverse ':' ns.reverse
    (by
      intro y hy
      simp only [bne_iff_ne, ne_eq]
      rintro rfl
      exact hname (List.mem_reverse.1 hy))
    (by decide)
  unfold beforeLastColon afterLastColon
  simp only [hrev, h.1, h.2]
  simp

/-- Every text with a colon splits at its rightmost colon. -/
theorem split_at_lastColon (s : String) (h : ':' ∈ s.data) :
    s.data = (beforeLastColon s).data ++ ':' :: (afterLastColon s).data ∧
    ':' ∉ (afterLastColon s).data := by
  have hsplit := List.takeWhile_append_dropWhile (fun c => c != ':') s.data.reverse
  have hall : ∀ c ∈ s.data.reverse.takeWhile (fun c => c != ':'), c ≠ ':' := by
    intro c hc
    have := List.mem_takeWhile_imp hc
    simpa using this
  cases hd : s.data.reverse.dropWhile (fun c => c != ':') with
  | nil =>
    rw [hd, List.append_nil] at hsplit
    have hmem : ':' ∈ s.data.reverse.takeWhile (fun c => c != ':') := by
      rw [hsplit]; exact List.mem_reverse.2 h
    exact absurd rfl (hall _ hmem)
  | cons x xs =>
    have hx : x = ':' := by
      have := List.head_dropWhile_not (fun c => c != ':') s.data.reverse
        (by rw [hd]; simp)
      simp only [hd, List.head_cons] at this
      simpa using this
    subst hx
    rw [hd] at hsplit
    have hs : s.data = xs.reverse ++ ':' :: (s.data.reverse.takeWhile (fun c => c != ':')).reverse := by
      have := congrArg List.reverse hsplit
      simpa using this.symm
    unfold beforeLastColon afterLastColon
    simp only [hd, List.drop_one, List.tail_cons]
    refine ⟨hs, ?_⟩
    intro hmem
    exact hall _ (List.mem_reverse.1 hmem) rfl

end Spec

/-! ## UTF-8 -/

namespace utf8

/-- Reading back the bytes of an encoding gives the code point encoded. -/
theorem candidate_EncodeRune (n : Nat) (h : n < 0x110000) (bs : List Nat) :
    candidate (EncodeRune n ++ bs) = n := by
  unfold EncodeRune
  by_cases h1 : n < 0x80
  · simp [h1, candidate]
  · by_cases h2 : n < 0x800
    · simp only [h1, h2, if_false, if_true, List.cons_append, List.nil_append, candidate,
        List.getD_cons_zero]
      rw [if_neg (by omega), if_pos (by omega)]
      omega
    · by_cases h3 : n < 0x10000
      · simp only [h1, h2, h3, if_false, if_true, List.cons_append, List.nil_append, candidate,
          List.getD_cons_zero, List.getD_cons_succ]
        rw [if_neg (by omega), if_neg (by omega), if_pos (by omega)]
        omega
      · simp only [h1, h2, h3, if_false, List.cons_append, List.nil_append, candidate,
          List.getD_cons_zero, List.getD_cons_succ]
        rw [if_neg (by omega), if_neg (by omega), if_neg (by omega)]
        omega

theorem EncodeRune_ne_nil (n : Nat) : EncodeRune n ≠ [] := by
  unfold EncodeRune
  split_ifs <;> simp

/-- `DecodeRune` reads back every character from its encoding, whatever
follows. -/
theorem DecodeRune_EncodeRune (c : Char) (bs : List Nat) :
    DecodeRune (EncodeRune c.toNat ++ bs) = some (c, (EncodeRune c.toNat).length) := by
  have hv : c.toNat.isValidChar := c.valid
  have hlt : c.toNat < 0x110000 := by
    rcases hv with h | h
    · omega
    · exact h.2
  unfold DecodeRune
  rw [candidate_EncodeRune c.toNat hlt bs]
  have hp : (EncodeRune c.toNat).isPrefixOf (EncodeRune c.toNat ++ bs) = true := by
    simp
  rw [if_pos ⟨hv, hp⟩]
  simp [Char.ofNat_toNat]

theorem toValidAux_skip (xs bs : List Nat) :
    toValidAux xs.length (xs ++ bs) = toValidAux 0 bs := by
  induction xs with
  | nil => rfl
  | cons x xs ih => simpa [toValidAux] using ih

/-- Valid UTF-8 passes through the coercion of `json.Marshal` unchanged. -/
theorem toValidAux_encode (cs : List Char) : toValidAux 0 (encode cs) = cs := by
  induction cs with
  | nil => rfl
  | cons c cs ih =>
    have hd := DecodeRune_EncodeRune c (encode cs)
    cases he : EncodeRune c.toNat with
    | nil => exact absurd he (EncodeRune_ne_nil _)
    | cons b tl =>
      rw [he] at hd
      simp only [encode, he, List.cons_append]
      simp only [List.cons_append] at hd
      unfold toValidAux
      rw [hd]
      simp only [List.length_cons, Nat.add_sub_cancel]
      rw [toValidAux_skip, ih]

theorem encode_append (a b : List Char) : encode (a ++ b) = encode a ++ encode b := by
  induction a with
  | nil => rfl
  | cons c cs ih => simp [encode, ih]

/-- An ASCII byte occurs in an encoding only as the encoding of its own
character: the bytes of a longer encoding are all 0x80 or more. -/
theorem mem_EncodeRune_ascii (a n : Nat) (ha : a < 0x80) : a ∈ EncodeRune n ↔ a = n := by
  unfold EncodeRune
  split_ifs with h1 h2 h3
  · simp
  · simp only [List.mem_cons, List.mem_singleton, List.not_mem_nil, or_false]
    omega
  · simp only [List.mem_cons, List.mem_singleton, List.not_mem_nil, or_false]
    omega
  · simp only [List.mem_cons, List.mem_singleton, List.not_mem_nil, or_false]
    omega

theorem mem_encode_ascii (a : Nat) (ha : a < 0x80) (cs : List Char) :
    a ∈ encode cs ↔ Char.ofNat a ∈ cs := by
  have hchar : ∀ c : Char, a = c.toNat ↔ Char.ofNat a = c := by
    intro c
    constructor
    · intro h
      rw [h, Char.ofNat_toNat]
    · intro h
      have hv : a.isValidChar := Or.inl (by omega)
      rw [← h]
      simp only [Char.ofNat, hv, dite_true, Char.ofNatAux, Char.toNat, UInt32.toNat]
      rfl
  induction cs with
  | nil => simp [encode]
  | cons c cs ih =>
    simp only [encode, List.mem_append, List.mem_cons, mem_EncodeRune_ascii a _ ha, ih, hchar c]

end utf8

namespace GoString

theorem toValidString_ofString (s : String) : (ofString s).toValidString = s := by
  unfold toValidString ofString
  simp only [utf8.toValidAux_encode]

theorem ofString_append (s t : String) : ofString (s ++ t) = ofString s ++ ofString t := by
  show ofString (s ++ t) = append (ofString s) (ofString t)
  unfold ofString append
  simp only [String.data_append, utf8.encode_append]

/-- The test `len(s) > 0` holds exactly for the texts that are not empty. -/
theorem len_ofString_pos_iff (s : String) : (ofString s).len > 0 ↔ s ≠ "" := by
  rcases s with ⟨l⟩
  cases l with
  | nil => simp [len, ofString, utf8.encode]
  | cons c cs =>
    have hne : (String.mk (c :: cs)) ≠ "" := by
      intro h
      have := congrArg String.data h
      simp at this
    have hpos : 0 < (utf8.EncodeRune c.toNat).length :=
      List.length_pos.2 (utf8.EncodeRune_ne_nil _)
    simp only [len, ofString, utf8.encode, List.length_append, gt_iff_lt, ne_eq, hne,
      not_false_eq_true, iff_true]
    omega

theorem mem_bytes_ofString_ascii (a : Nat) (ha : a < 0x80) (s : String) :
    a ∈ (ofString s).bytes ↔ Char.ofNat a ∈ s.data :=
  utf8.mem_encode_ascii a ha s.data

end GoString

namespace SecretReference

/-- Decoding a string without a colon: the pattern does not match, the whole
string becomes `Name` and `Namespace` is left alone. -/
theorem UnmarshalJSON_no_colon (r : SecretReference) (s : String) (h : ':' ∉ s.data) :
    UnmarshalJSON r (JSON.str s) = ({ r with Name := s }, none) := by
  simp [UnmarshalJSON, json.UnmarshalString, secretRefRegexp.FindStringSubmatch_no_colon s h]

/-- Decoding `ns ++ ":" ++ name`, `ns` without line feed and `name` without
colon. -/
theorem UnmarshalJSON_split (r : SecretReference) (ns name : String)
    (hns : '\n' ∉ ns.data) (hname : ':' ∉ name.data) :
    UnmarshalJSON r (JSON.str (ns ++ ":" ++ name)) =
      ({ Name := name, Namespace := ns }, none) := by
  have hs : ns ++ ":" ++ name = String.mk (ns.data ++ ':' :: name.data) := by
    apply String.ext
    simp [String.data_append]
  rw [hs]
  simp [UnmarshalJSON, json.UnmarshalString,
    secretRefRegexp.FindStringSubmatch_split ns.data name.data hns hname]

/-- Encoding a reference whose fields hold the texts `name` and `ns`. -/
theorem MarshalJSON_ofString (name ns : String) :
    MarshalJSON { Name := name, Namespace := ns } =
      (some (JSON.str (if ns = "" then name else ns ++ ":" ++ name)), none) := by
  unfold MarshalJSON
  by_cases h : ns = ""
  · subst h
    have hlen : ¬ (GoString.ofString "").len > 0 :=
      fun hp => (GoString.len_ofString_pos_iff _).1 hp rfl
    simp only [hlen, if_false, if_true, json.MarshalGoString,
      GoString.toValidString_ofString]
  · have hlen : (GoString.ofString ns).len > 0 := (GoString.len_ofString_pos_iff _).2 h
    simp only [hlen, if_true, h, if_false, json.MarshalGoString,
      ← GoString.ofString_append, GoString.toValidString_ofString]

end SecretReference

/-! ## The secret-reference codec: the claims -/

/-- C7 (amended): for every string `s` that contains a colon and has no line
feed before its rightmost colon, decoding `s` into a fresh reference sets
`Namespace` to the text before the rightmost colon and `Name` to the text after
it; these two satisfy `Namespace + ":" + Name = s` and `Name` has no colon. -/
theorem C7_UnmarshalJSON_splits_at_last_colon (s : String) (hcolon : ':' ∈ s.data)
    (hnl : '\n' ∉ (Spec.beforeLastColon s).data) :
    SecretReference.UnmarshalJSON { Name := "", Namespace := "" } (JSON.str s) =
      ({ Name := Spec.afterLastColon s, Namespace := Spec.beforeLastColon s }, none) ∧
    Spec.beforeLastColon s ++ ":" ++ Spec.afterLastColon s = s ∧
    ':' ∉ (Spec.afterLastColon s).data := by
  have hsp := Spec.split_at_lastColon s hcolon
  have hs : Spec.beforeLastColon s ++ ":" ++ Spec.afterLastColon s = s := by
    apply String.ext
    simp [String.data_append, ← hsp.1]
  refine ⟨?_, hs, hsp.2⟩
  have := SecretReference.UnmarshalJSON_split { Name := "", Namespace := "" }
    (Spec.beforeLastColon s) (Spec.afterLastColon s) hnl hsp.2
  rwa [hs] at this

/-- C7 (amended) at "a:b:c": the namespace is "a:b" and the name is "c". -/
theorem C7_UnmarshalJSON_splits_at_last_colon_witness :
    (':' ∈ "a:b:c".data ∧ '\n' ∉ (Spec.beforeLastColon "a:b:c").data) ∧
    (SecretReference.UnmarshalJSON { Name := "", Namespace := "" } (JSON.str "a:b:c") =
      ({ Name := Spec.afterLastColon "a:b:c", Namespace := Spec.beforeLastColon "a:b:c" },
        none) ∧
    Spec.beforeLastColon "a:b:c" ++ ":" ++ Spec.afterLastColon "a:b:c" = "a:b:c" ∧
    ':' ∉ (Spec.afterLastColon "a:b:c").data) :=
  ⟨⟨by decide, by decide⟩,
    C7_UnmarshalJSON_splits_at_last_colon "a:b:c" (by decide) (by decide)⟩

/-- C7 as stated fails at "a\nb:c": the string contains a colon, the text
before its rightmost colon is "a\nb", yet decoding leaves `Namespace` empty and
puts the whole string, colon included, into `Name`. -/
theorem C7_counterexample_line_feed_before_colon :
    ':' ∈ "a\nb:c".data ∧
    Spec.beforeLastColon "a\nb:c" = "a\nb" ∧ Spec.afterLastColon "a\nb:c" = "c" ∧
    SecretReference.UnmarshalJSON { Name := "", Namespace := "" } (JSON.str "a\nb:c") =
      ({ Name := "a\nb:c", Namespace := "" }, none) ∧
    ¬ (SecretReference.UnmarshalJSON { Name := "", Namespace := "" } (JSON.str "a\nb:c") =
      ({ Name := Spec.afterLastColon "a\nb:c", Namespace := Spec.beforeLastColon "a\nb:c" },
        none)) := by
  decide

/-- The two examples given with C7: "ns:name" and "a:b:c". -/
theorem SecretReference_UnmarshalJSON_examples :
    SecretReference.UnmarshalJSON { Name := "", Namespace := "" } (JSON.str "ns:name") =
      ({ Name := "name", Namespace := "ns" }, none) ∧
    SecretReference.UnmarshalJSON { Name := "", Namespace := "" } (JSON.str "a:b:c") =
      ({ Name := "c", Namespace := "a:b" }, none) := by
  decide

/-- C8: for every string without a colon, the empty string included, decoding
it into a fresh reference returns no error, with `Name` the whole string and
`Namespace` empty. -/
theorem C8_UnmarshalJSON_without_colon (s : String) (h : ':' ∉ s.data) :
    SecretReference.UnmarshalJSON { Name := "", Namespace := "" } (JSON.str s) =
      ({ Name := s, Namespace := "" }, none) :=
  SecretReference.UnmarshalJSON_no_colon _ s h

/-- C8 at the empty string. -/
theorem C8_UnmarshalJSON_without_colon_witness :
    ':' ∉ "".data ∧
    SecretReference.UnmarshalJSON { Name := "", Namespace := "" } (JSON.str "") =
      ({ Name := "", Namespace := "" }, none) :=
  ⟨by decide, C8_UnmarshalJSON_without_colon "" (by decide)⟩

/-- The two examples given with C9. -/
theorem SecretReference_MarshalJSON_examples :
    SecretReference.MarshalJSON { Name := "name", Namespace := "ns" } =
      (some (JSON.str "ns:name"), none) ∧
    SecretReference.MarshalJSON { Name := "name", Namespace := "" } =
      (some (JSON.str "name"), none) :=
  ⟨rfl, rfl⟩

/-- C10 (amended): for every reference whose `Name` and `Namespace` are valid
UTF-8, whose `Name` has no colon and whose `Namespace` has no line feed (it may
be empty and may contain colons), `MarshalJSON` succeeds and decoding its
output into a fresh reference returns no error and the same `Name` and
`Namespace`. -/
theorem C10_secret_reference_round_trip (r : SecretReference)
    (hvname : r.Name.IsValidUTF8) (hvns : r.Namespace.IsValidUTF8)
    (hname : 0x3A ∉ r.Name.bytes) (hns : 0x0A ∉ r.Namespace.bytes) :
    ∃ b, SecretReference.MarshalJSON r = (some b, none) ∧
      SecretReference.UnmarshalJSON { Name := "", Namespace := "" } b = (r, none) := by
  rcases r with ⟨_, _⟩
  obtain ⟨name, rfl⟩ := hvname
  obtain ⟨ns, rfl⟩ := hvns
  have hname' : ':' ∉ name.data := fun h =>
    hname ((GoString.mem_bytes_ofString_ascii 0x3A (by decide) name).2 h)
  have hns' : '\n' ∉ ns.data := fun h =>
    hns ((GoString.mem_bytes_ofString_ascii 0x0A (by decide) ns).2 h)
  refine ⟨_, SecretReference.MarshalJSON_ofString name ns, ?_⟩
  by_cases h : ns = ""
  · subst h
    rw [if_pos rfl]
    exact SecretReference.UnmarshalJSON_no_colon _ name hname'
  · rw [if_neg h]
    exact SecretReference.UnmarshalJSON_split _ ns name hns' hname'

/-- C10 (amended) at the reference with name "c" and namespace "a:b". -/
theorem C10_secret_reference_round_trip_witness :
    ((GoString.ofString "c").IsValidUTF8 ∧ (GoString.ofString "a:b").IsValidUTF8 ∧
      0x3A ∉ (GoString.ofString "c").bytes ∧ 0x0A ∉ (GoString.ofString "a:b").bytes) ∧
    ∃ b, SecretReference.MarshalJSON { Name := "c", Namespace := "a:b" } = (some b, none) ∧
      SecretReference.UnmarshalJSON { Name := "", Namespace := "" } b =
        ({ Name := "c", Namespace := "a:b" }, none) :=
  ⟨⟨⟨"c", rfl⟩, ⟨"a:b", rfl⟩, by decide, by decide⟩,
    C10_secret_reference_round_trip { Name := "c", Namespace := "a:b" } ⟨"c", rfl⟩
      ⟨"a:b", rfl⟩ (by decide) (by decide)⟩

/-- C10 as stated fails in two ways.  At the reference with name "n" and
namespace "a\nb" the name has no colon, `MarshalJSON` emits "a\nb:n", and
decoding that gives an empty namespace and the name "a\nb:n".  At the
reference whose name is the single byte 0xFF, which is no colon, `MarshalJSON`
emits U+FFFD and decoding gives the name EF BF BD. -/
theorem C10_counterexample_line_feed_or_invalid_utf8 :
    (0x3A ∉ (GoString.ofString "n").bytes ∧
      SecretReference.MarshalJSON { Name := "n", Namespace := "a\nb" } =
        (some (JSON.str "a\nb:n"), none) ∧
      SecretReference.UnmarshalJSON { Name := "", Namespace := "" } (JSON.str "a\nb:n") =
        ({ Name := "a\nb:n", Namespace := "" }, none) ∧
      (SecretReference.UnmarshalJSON { Name := "", Namespace := "" } (JSON.str "a\nb:n")).1 ≠
        { Name := "n", Namespace := "a\nb" }) ∧
    (0x3A ∉ [0xFF] ∧
      SecretReference.MarshalJSON { Name := { bytes := [0xFF] }, Namespace := "" } =
        (some (JSON.str "\uFFFD"), none) ∧
      SecretReference.UnmarshalJSON { Name := "", Namespace := "" } (JSON.str "\uFFFD") =
        ({ Name := { bytes := [0xEF, 0xBF, 0xBD] }, Namespace := "" }, none) ∧
      (SecretReference.UnmarshalJSON { Name := "", Namespace := "" } (JSON.str "\uFFFD")).1 ≠
        { Name := { bytes := [0xFF] }, Namespace := "" }) := by
  refine ⟨⟨by decide, rfl, by decide, by decide⟩, ⟨by decide, rfl, by decide, by decide⟩⟩

/-! ## The persistent volume -/

/-- The tag of the RBD variant differs from the tags of the other fifteen. -/
theorem Env.RBD_tag_fresh (E : Env) :
    VolumeTypeRBD ∉
      [E.VolumeTypeGcePD, E.VolumeTypeAwsEBS, E.VolumeTypeHostPath, E.VolumeTypeGlusterfs,
        E.VolumeTypeNFS, E.VolumeTypeISCSI, E.VolumeTypeCinder, E.VolumeTypeFibreChannel,
        E.VolumeTypeFlocker, E.VolumeTypeFlex, E.VolumeTypeVsphere, E.VolumeTypeQuobyte,
        E.VolumeTypeAzureDisk, E.VolumeTypePhotonPD, E.VolumeTypePortworx] := by
  have h : List.Nodup
      ([E.VolumeTypeGcePD, E.VolumeTypeAwsEBS, E.VolumeTypeHostPath, E.VolumeTypeGlusterfs,
        E.VolumeTypeNFS, E.VolumeTypeISCSI, E.VolumeTypeCinder, E.VolumeTypeFibreChannel,
        E.VolumeTypeFlocker, E.VolumeTypeFlex, E.VolumeTypeVsphere, E.VolumeTypeQuobyte,
        E.VolumeTypeAzureDisk, E.VolumeTypePhotonPD, E.VolumeTypePortworx] ++
        [VolumeTypeRBD]) := E.tags_distinct
  intro hmem
  exact (List.nodup_append.1 h).2.2 hmem (List.mem_singleton.2 rfl)

/-- With the tag of the RBD variant, `Unmarshal` reaches the last case: it
stores a new RBD volume and runs `RBDPersistentVolume.Unmarshal` on it. -/
theorem PersistentVolumeSource.Unmarshal_RBD (E : Env) (v : PersistentVolumeSource E)
    (obj : Obj) (selector : List String) :
    PersistentVolumeSource.Unmarshal E v obj VolumeTypeRBD selector =
      ({ v with
          RBD := some (RBDPersistentVolume.Unmarshal RBDPersistentVolume.zero obj selector).1 },
        (RBDPersistentVolume.Unmarshal RBDPersistentVolume.zero obj selector).2) := by
  have hf := E.RBD_tag_fresh
  simp only [List.mem_cons, List.mem_singleton, List.not_mem_nil, or_false, not_or] at hf
  obtain ⟨h1, h2, h3, h4, h5, h6, h7, h8, h9, h10, h11, h12, h13, h14, h15⟩ := hf
  unfold PersistentVolumeSource.Unmarshal
  simp only [h1, h2, h3, h4, h5, h6, h7, h8, h9, h10, h11, h12, h13, h14, h15, if_false,
    if_true]

/-- Decoding the flat object of `pvEmptyModes` as a volume source succeeds and
sets the RBD variant. -/
theorem PersistentVolumeSource.UnmarshalJSON_pvEmptyModesFlat (E : Env) :
    PersistentVolumeSource.UnmarshalJSON E (PersistentVolumeSource.zero E) pvEmptyModesFlat =
      ((pvEmptyModes E).PersistentVolumeSource, none) := by
  have h : PersistentVolumeSource.UnmarshalJSON E (PersistentVolumeSource.zero E)
      pvEmptyModesFlat =
      PersistentVolumeSource.Unmarshal E (PersistentVolumeSource.zero E)
        [("monitors", JSON.arr [JSON.str "10.0.0.1:6789"]), ("image", JSON.str "img"),
          ("vol_type", JSON.str "rbd"), ("name", JSON.str "pv"), ("modes", JSON.str "")]
        VolumeTypeRBD [] := rfl
  rw [h, PersistentVolumeSource.Unmarshal_RBD]
  rfl

/-- Three decodings of metadata in place.  A key is matched with a tag under
case folding.  A value of the wrong kind is remembered as an error and the
members after it are still decoded.  The error of `AccessModes.UnmarshalJSON`
ends the decoding: the member after it is not decoded, and the access-mode list
stays as `InitFromString` left it. -/
theorem PersistentVolumeMeta.jsonUnmarshal_examples :
    PersistentVolumeMeta.jsonUnmarshal Env.sample (JSON.obj [("NAME", JSON.str "pv")])
        (PersistentVolumeMeta.zero Env.sample) =
      ({ PersistentVolumeMeta.zero Env.sample with Name := "pv" }, none) ∧
    PersistentVolumeMeta.jsonUnmarshal Env.sample
        (JSON.obj [("version", JSON.num "1"), ("name", JSON.str "pv")])
        (PersistentVolumeMeta.zero Env.sample) =
      ({ PersistentVolumeMeta.zero Env.sample with Name := "pv" },
        some (Error.Json "json: cannot unmarshal value into Go value of type string")) ∧
    PersistentVolumeMeta.jsonUnmarshal Env.sample
        (JSON.obj [("modes", JSON.str "ro,bad"), ("name", JSON.str "pv")])
        (PersistentVolumeMeta.zero Env.sample) =
      ({ PersistentVolumeMeta.zero Env.sample with
          AccessModes := some { Modes := [v1.ReadOnlyMany, ""] } },
        some (Error.InvalidValue "couldn't parse (ro,bad)")) :=
  ⟨rfl, rfl, rfl⟩

/-- Decoding the flat object of `pvEmptyModes` into a fresh record fails on the
metadata, because `InitFromString("")` returns the invalid-value error; the
access-mode list of the record is then the one `InitFromString` left behind, of
one empty mode. -/
theorem PersistentVolume.UnmarshalJSON_fails_on_pvEmptyModesFlat (E : Env) :
    (PersistentVolume.UnmarshalJSON E (PersistentVolume.zero E) pvEmptyModesFlat).2 =
      some (Error.InvalidValueForType
        "couldn't unmarshal metadata from JSON: couldn't parse ()") ∧
    (PersistentVolume.UnmarshalJSON E (PersistentVolume.zero E)
      pvEmptyModesFlat).1.PersistentVolumeMeta.AccessModes = some { Modes := [""] } ∧
    (PersistentVolume.UnmarshalJSON E (PersistentVolume.zero E)
      pvEmptyModesFlat).1.PersistentVolumeSource = (pvEmptyModes E).PersistentVolumeSource := by
  unfold PersistentVolume.UnmarshalJSON
  have hz : (PersistentVolume.zero E).PersistentVolumeSource = PersistentVolumeSource.zero E :=
    rfl
  rw [hz, PersistentVolumeSource.UnmarshalJSON_pvEmptyModesFlat]
  exact ⟨rfl, rfl, rfl⟩

/-- C1 (as the code behaves): the record `pvEmptyModes` has exactly the RBD
variant set and an access-mode list that is present and empty.  `MarshalJSON`
succeeds on it and writes `"modes": ""`; `UnmarshalJSON` of that output into a
fresh record returns an error, the invalid-value error of `InitFromString("")`
wrapped as a metadata error.  The round trip does not give the record back. -/
theorem C1_round_trip_fails_on_empty_access_modes (E : Env) :
    PersistentVolume.MarshalJSON E (pvEmptyModes E) = (some pvEmptyModesFlat, none) ∧
    (PersistentVolume.UnmarshalJSON E (PersistentVolume.zero E) pvEmptyModesFlat).2 =
      some (Error.InvalidValueForType
        "couldn't unmarshal metadata from JSON: couldn't parse ()") :=
  ⟨rfl, (PersistentVolume.UnmarshalJSON_fails_on_pvEmptyModesFlat E).1⟩

/-- The round trip succeeds on `pvTwoModes`, whose access-mode list is not
empty, at the instance `Env.sample` of the outside declarations: the encoder
writes `"modes": "ro,rw-once"` and the decoder gives the record back. -/
theorem round_trip_pvTwoModes_sample :
    ∃ b, PersistentVolume.MarshalJSON Env.sample (pvTwoModes Env.sample) = (some b, none) ∧
      Obj.get (match b with | JSON.obj members => members | _ => []) "modes" =
        some (JSON.str "ro,rw-once") ∧
      PersistentVolume.UnmarshalJSON Env.sample (PersistentVolume.zero Env.sample) b =
        (pvTwoModes Env.sample, none) :=
  ⟨_, rfl, rfl, rfl⟩

/-! ## The access-mode codec, both ways -/

namespace Spec

theorem tokenOfMode_modeOfToken {t : String} (h : IsToken t) :
    tokenOfMode (modeOfToken t) = t := by
  rcases h with h | h | h <;> subst h <;> decide

theorem modeOfToken_tokenOfMode {m : PersistentVolumeAccessMode} (h : IsMode m) :
    modeOfToken (tokenOfMode m) = m := by
  rcases h with h | h | h <;> subst h <;> decide

theorem isMode_modeOfToken {t : String} (h : IsToken t) : IsMode (modeOfToken t) := by
  rcases h with h | h | h <;> subst h <;> decide

theorem isToken_tokenOfMode {m : PersistentVolumeAccessMode} (h : IsMode m) :
    IsToken (tokenOfMode m) := by
  rcases h with h | h | h <;> subst h <;> decide

end Spec

namespace AccessModes

/-- Decoding the join of a non-empty list of tokens gives the mapped modes. -/
theorem InitFromString_of_tokens (a : AccessModes) (ts : List String) (hne : ts ≠ [])
    (hts : ∀ t ∈ ts, Spec.IsToken t) :
    InitFromString a (strings.Join ts ",") = ({ Modes := ts.map Spec.modeOfToken }, none) := by
  have hsplit : strings.Split (strings.Join ts ",") ',' = ts :=
    strings.Split_Join ',' ts hne (fun e he => (hts e he).comma_free)
  have hlen : ts.length ≠ 0 := by
    cases ts with
    | nil => exact absurd rfl hne
    | cons _ _ => simp
  unfold InitFromString
  simp only [hsplit, hlen, if_false]
  rw [InitFromString_loop_ok _ ts _ 0 hts (by simp)]
  simp

/-- What an accepted input looks like: every piece of it is a token, and the
receiver holds the mapped pieces. -/
theorem InitFromString_accepts (a a' : AccessModes) (s : String)
    (h : InitFromString a s = (a', none)) :
    (∀ p ∈ strings.Split s ',', Spec.IsToken p) ∧
      a' = { Modes := (strings.Split s ',').map Spec.modeOfToken } := by
  have hlen : (strings.Split s ',').length ≠ 0 := by
    have := strings.Split_ne_nil ',' s
    cases hs : strings.Split s ',' with
    | nil => exact absurd hs this
    | cons _ _ => simp
  unfold InitFromString at h
  simp only [hlen, if_false] at h
  have h2 := congrArg Prod.snd h
  simp only at h2
  rw [InitFromString_loop_err] at h2
  have hall : ∀ p ∈ strings.Split s ',', Spec.IsToken p := by
    by_contra hc
    rw [if_neg hc] at h2
    exact absurd h2 (by simp)
  refine ⟨hall, ?_⟩
  have h1 := congrArg Prod.fst h
  simp only at h1
  rw [InitFromString_loop_ok s _ _ 0 hall (by simp)] at h1
  simpa using h1.symm

end AccessModes

/-- C20: for every string that `InitFromString` accepts, `ToString` on the
decoded modes returns no error and exactly that string; and for every non-empty
sequence of modes drawn from read-only-many, read-write-many, read-write-once,
`ToString` succeeds and `InitFromString` applied to its output returns no error
and that same sequence. -/
theorem C20_access_mode_string_round_trip (a a' : AccessModes) (s : String)
    (ms : List PersistentVolumeAccessMode)
    (hacc : AccessModes.InitFromString a s = (a', none))
    (hne : ms ≠ []) (hms : ∀ m ∈ ms, Spec.IsMode m) :
    AccessModes.ToString (some a') = (s, none) ∧
    ∃ t, AccessModes.ToString (some { Modes := ms }) = (t, none) ∧
      AccessModes.InitFromString a t = ({ Modes := ms }, none) := by
  constructor
  · obtain ⟨hall, rfl⟩ := AccessModes.InitFromString_accepts a a' s hacc
    rw [AccessModes.ToString_of_valid _ (by
      intro m hm
      rcases List.mem_map.1 hm with ⟨p, hp, rfl⟩
      exact Spec.isMode_modeOfToken (hall p hp))]
    have hmap : ((strings.Split s ',').map Spec.modeOfToken).map Spec.tokenOfMode =
        strings.Split s ',' := by
      rw [List.map_map]
      conv_rhs => rw [← List.map_id (strings.Split s ',')]
      apply List.map_congr_left
      intro p hp
      exact Spec.tokenOfMode_modeOfToken (hall p hp)
    rw [hmap]
    have := strings.Join_Split ',' s
    exact congrArg (fun x => (x, (none : Option Error))) this
  · refine ⟨_, AccessModes.ToString_of_valid ms hms, ?_⟩
    rw [AccessModes.InitFromString_of_tokens a _ (by simpa using hne) (by
      intro t ht
      rcases List.mem_map.1 ht with ⟨m, hm, rfl⟩
      exact Spec.isToken_tokenOfMode (hms m hm))]
    have hmap : (ms.map Spec.tokenOfMode).map Spec.modeOfToken = ms := by
      rw [List.map_map]
      conv_rhs => rw [← List.map_id ms]
      apply List.map_congr_left
      intro m hm
      exact Spec.modeOfToken_tokenOfMode (hms m hm)
    rw [hmap]

/-- C20 at the string "rw,ro" and the sequence read-write-once, read-only-many. -/
theorem C20_access_mode_string_round_trip_witness :
    (AccessModes.InitFromString ⟨[]⟩ "rw,ro" =
        ({ Modes := [v1.ReadWriteMany, v1.ReadOnlyMany] }, none) ∧
      [v1.ReadWriteOnce, v1.ReadOnlyMany] ≠ [] ∧
      ∀ m ∈ [v1.ReadWriteOnce, v1.ReadOnlyMany], Spec.IsMode m) ∧
    (AccessModes.ToString (some { Modes := [v1.ReadWriteMany, v1.ReadOnlyMany] }) =
        ("rw,ro", none) ∧
      ∃ t, AccessModes.ToString (some { Modes := [v1.ReadWriteOnce, v1.ReadOnlyMany] }) =
          (t, none) ∧
        AccessModes.InitFromString ⟨[]⟩ t =
          ({ Modes := [v1.ReadWriteOnce, v1.ReadOnlyMany] }, none)) :=
  ⟨⟨by decide, by decide, by decide⟩,
    C20_access_mode_string_round_trip ⟨[]⟩ { Modes := [v1.ReadWriteMany, v1.ReadOnlyMany] }
      "rw,ro" [v1.ReadWriteOnce, v1.ReadOnlyMany] (by decide) (by decide) (by decide)⟩

/-! ## Decoding the volume source -/

/-- C11: for every flat object, selector and receiver, and every tag that is
not one of the sixteen volume-type tags, `PersistentVolumeSource.Unmarshal`
returns the invalid-value error that quotes the tag and leaves the receiver as
it was, so no variant is populated. -/
theorem C11_Unmarshal_rejects_unknown_tag (E : Env) (v : PersistentVolumeSource E)
    (obj : Obj) (selector : List String) (tag : String) (htag : tag ∉ Spec.tags E) :
    PersistentVolumeSource.Unmarshal E v obj tag selector =
      (v, some (Error.InvalidValue ("unsupported volume type (" ++ tag ++ ")"))) := by
  simp only [Spec.tags, List.mem_cons, List.mem_singleton, List.not_mem_nil, or_false,
    not_or] at htag
  obtain ⟨h1, h2, h3, h4, h5, h6, h7, h8, h9, h10, h11, h12, h13, h14, h15, h16⟩ := htag
  unfold PersistentVolumeSource.Unmarshal
  simp only [h1, h2, h3, h4, h5, h6, h7, h8, h9, h10, h11, h12, h13, h14, h15, h16, if_false]

/-- C11 at the tag "bogus", the instance `Env.sample` and a source with no
variant set. -/
theorem C11_Unmarshal_rejects_unknown_tag_witness :
    "bogus" ∉ Spec.tags Env.sample ∧
    PersistentVolumeSource.Unmarshal Env.sample (PersistentVolumeSource.zero Env.sample)
        [("vol_type", JSON.str "bogus")] "bogus" ["x"] =
      (PersistentVolumeSource.zero Env.sample,
        some (Error.InvalidValue ("unsupported volume type (" ++ "bogus" ++ ")"))) :=
  ⟨by decide,
    C11_Unmarshal_rejects_unknown_tag Env.sample (PersistentVolumeSource.zero Env.sample)
      [("vol_type", JSON.str "bogus")] ["x"] "bogus" (by decide)⟩

/-- A non-empty selector makes `RBDPersistentVolume.Unmarshal` return at its
first statement. -/
theorem RBDPersistentVolume.Unmarshal_of_selector (s : RBDPersistentVolume) (obj : Obj)
    (selector : List String) (hsel : selector ≠ []) :
    RBDPersistentVolume.Unmarshal s obj selector =
      (s, some (Error.InvalidValue "expected zero selector segments for rbd")) := by
  have hlen : selector.length ≠ 0 := by
    cases selector with
    | nil => exact absurd rfl hsel
    | cons _ _ => simp
  unfold RBDPersistentVolume.Unmarshal
  rw [if_pos hlen]
  rfl

/-- How `UnmarshalJSON` reaches `Unmarshal`: with the decoded map `obj`, a
string under "vol_type", and the selector read off "vol_id": the pieces of the
string split on ':' when the key holds a string, the nil slice when the key is
absent. -/
theorem PersistentVolumeSource.UnmarshalJSON_dispatch (E : Env)
    (v : PersistentVolumeSource E) (data : JSON) (obj : Obj) (volType : String)
    (hobj : json.UnmarshalObj data [] = Except.ok obj)
    (htype : obj.get "vol_type" = some (JSON.str volType)) :
    (∀ volName, obj.get "vol_id" = some (JSON.str volName) →
      PersistentVolumeSource.UnmarshalJSON E v data =
        PersistentVolumeSource.Unmarshal E v obj volType (strings.Split volName ':')) ∧
    (obj.get "vol_id" = none →
      PersistentVolumeSource.UnmarshalJSON E v data =
        PersistentVolumeSource.Unmarshal E v obj volType []) := by
  constructor
  · intro volName hid
    simp [PersistentVolumeSource.UnmarshalJSON, hobj, hid, util.GetStringEntry, htype]
  · intro hid
    simp [PersistentVolumeSource.UnmarshalJSON, hobj, hid, util.GetStringEntry, htype]

/-- C12: the RBD variant expects zero selector segments: for every receiver,
flat object and non-empty selector `RBDPersistentVolume.Unmarshal` returns the
invalid-value error; and decoding a flat object that holds `vol_type: "rbd"`
and `vol_id: "x"` through `PersistentVolumeSource.UnmarshalJSON` returns that
error. -/
theorem C12_RBD_expects_zero_selector_segments (E : Env) (v : PersistentVolumeSource E)
    (s : RBDPersistentVolume) (obj : Obj) (selector : List String) (data : JSON) (flat : Obj)
    (hsel : selector ≠ [])
    (hflat : json.UnmarshalObj data [] = Except.ok flat)
    (htype : flat.get "vol_type" = some (JSON.str "rbd"))
    (hid : flat.get "vol_id" = some (JSON.str "x")) :
    RBDPersistentVolume.Unmarshal s obj selector =
      (s, some (Error.InvalidValue "expected zero selector segments for rbd")) ∧
    (PersistentVolumeSource.UnmarshalJSON E v data).2 =
      some (Error.InvalidValue "expected zero selector segments for rbd") := by
  refine ⟨RBDPersistentVolume.Unmarshal_of_selector s obj selector hsel, ?_⟩
  rw [(PersistentVolumeSource.UnmarshalJSON_dispatch E v data flat "rbd" hflat htype).1 "x" hid]
  have hx : strings.Split "x" ':' = ["x"] := by decide
  rw [hx]
  have hrbd : ("rbd" : String) = VolumeTypeRBD := rfl
  rw [hrbd, PersistentVolumeSource.Unmarshal_RBD]
  simp only
  rw [RBDPersistentVolume.Unmarshal_of_selector _ _ _ (by simp)]

/-- C12 at the selector `["x"]` and the flat object `{"vol_type": "rbd",
"vol_id": "x", "image": "img"}`, with the instance `Env.sample`. -/
theorem C12_RBD_expects_zero_selector_segments_witness :
    (["x"] ≠ [] ∧
      json.UnmarshalObj
          (JSON.obj [("vol_type", JSON.str "rbd"), ("vol_id", JSON.str "x"),
            ("image", JSON.str "img")]) [] =
        Except.ok [("vol_type", JSON.str "rbd"), ("vol_id", JSON.str "x"),
          ("image", JSON.str "img")] ∧
      Obj.get [("vol_type", JSON.str "rbd"), ("vol_id", JSON.str "x"),
          ("image", JSON.str "img")] "vol_type" = some (JSON.str "rbd") ∧
      Obj.get [("vol_type", JSON.str "rbd"), ("vol_id", JSON.str "x"),
          ("image", JSON.str "img")] "vol_id" = some (JSON.str "x")) ∧
    (RBDPersistentVolume.Unmarshal RBDPersistentVolume.zero [("image", JSON.str "img")] ["x"] =
        (RBDPersistentVolume.zero,
          some (Error.InvalidValue "expected zero selector segments for rbd")) ∧
      (PersistentVolumeSource.UnmarshalJSON Env.sample (PersistentVolumeSource.zero Env.sample)
          (JSON.obj [("vol_type", JSON.str "rbd"), ("vol_id", JSON.str "x"),
            ("image", JSON.str "img")])).2 =
        some (Error.InvalidValue "expected zero selector segments for rbd")) :=
  ⟨⟨by decide, rfl, rfl, rfl⟩,
    C12_RBD_expects_zero_selector_segments Env.sample (PersistentVolumeSource.zero Env.sample)
      RBDPersistentVolume.zero [("image", JSON.str "img")] ["x"] _ _ (by decide) rfl rfl rfl⟩

/-- C13 (amended): when the flat object's "vol_id" is the empty string, the
selector that `PersistentVolumeSource.UnmarshalJSON` passes to the variant has
one segment, the empty string; it has zero segments when the flat object has no
"vol_id"; and "a:b:c" yields the segments "a", "b", "c". -/
theorem C13_selector_of_vol_id (E : Env) (v : PersistentVolumeSource E) (data : JSON)
    (obj : Obj) (volType : String)
    (hobj : json.UnmarshalObj data [] = Except.ok obj)
    (htype : obj.get "vol_type" = some (JSON.str volType)) :
    (obj.get "vol_id" = some (JSON.str "") →
      PersistentVolumeSource.UnmarshalJSON E v data =
        PersistentVolumeSource.Unmarshal E v obj volType [""]) ∧
    (obj.get "vol_id" = none →
      PersistentVolumeSource.UnmarshalJSON E v data =
        PersistentVolumeSource.Unmarshal E v obj volType []) ∧
    (obj.get "vol_id" = some (JSON.str "a:b:c") →
      PersistentVolumeSource.UnmarshalJSON E v data =
        PersistentVolumeSource.Unmarshal E v obj volType ["a", "b", "c"]) := by
  have hd := PersistentVolumeSource.UnmarshalJSON_dispatch E v data obj volType hobj htype
  have h0 : strings.Split "" ':' = [""] := by decide
  have h3 : strings.Split "a:b:c" ':' = ["a", "b", "c"] := by decide
  refine ⟨fun hid => ?_, hd.2, fun hid => ?_⟩
  · rw [hd.1 "" hid, h0]
  · rw [hd.1 "a:b:c" hid, h3]

/-- C13 (amended) at the flat object `{"vol_type": "gce_pd", "vol_id": ""}` and
the instance `Env.sample`. -/
theorem C13_selector_of_vol_id_witness :
    (json.UnmarshalObj (JSON.obj [("vol_type", JSON.str "gce_pd"), ("vol_id", JSON.str "")])
          [] =
        Except.ok [("vol_type", JSON.str "gce_pd"), ("vol_id", JSON.str "")] ∧
      Obj.get [("vol_type", JSON.str "gce_pd"), ("vol_id", JSON.str "")] "vol_type" =
        some (JSON.str "gce_pd")) ∧
    ((Obj.get [("vol_type", JSON.str "gce_pd"), ("vol_id", JSON.str "")] "vol_id" =
        some (JSON.str "") →
      PersistentVolumeSource.UnmarshalJSON Env.sample (PersistentVolumeSource.zero Env.sample)
          (JSON.obj [("vol_type", JSON.str "gce_pd"), ("vol_id", JSON.str "")]) =
        PersistentVolumeSource.Unmarshal Env.sample (PersistentVolumeSource.zero Env.sample)
          [("vol_type", JSON.str "gce_pd"), ("vol_id", JSON.str "")] "gce_pd" [""]) ∧
    (Obj.get [("vol_type", JSON.str "gce_pd"), ("vol_id", JSON.str "")] "vol_id" = none →
      PersistentVolumeSource.UnmarshalJSON Env.sample (PersistentVolumeSource.zero Env.sample)
          (JSON.obj [("vol_type", JSON.str "gce_pd"), ("vol_id", JSON.str "")]) =
        PersistentVolumeSource.Unmarshal Env.sample (PersistentVolumeSource.zero Env.sample)
          [("vol_type", JSON.str "gce_pd"), ("vol_id", JSON.str "")] "gce_pd" []) ∧
    (Obj.get [("vol_type", JSON.str "gce_pd"), ("vol_id", JSON.str "")] "vol_id" =
        some (JSON.str "a:b:c") →
      PersistentVolumeSource.UnmarshalJSON Env.sample (PersistentVolumeSource.zero Env.sample)
          (JSON.obj [("vol_type", JSON.str "gce_pd"), ("vol_id", JSON.str "")]) =
        PersistentVolumeSource.Unmarshal Env.sample (PersistentVolumeSource.zero Env.sample)
          [("vol_type", JSON.str "gce_pd"), ("vol_id", JSON.str "")] "gce_pd"
          ["a", "b", "c"])) :=
  ⟨⟨rfl, rfl⟩,
    C13_selector_of_vol_id Env.sample (PersistentVolumeSource.zero Env.sample) _ _ "gce_pd"
      rfl rfl⟩

/-- C13 as stated fails at the flat object `{"vol_type": "gce_pd", "vol_id":
""}`: `strings.Split("", ":")` has one piece, so the variant is handed one
segment.  In `Env.sample` the GcePD stand-in keeps the selector it is handed,
and what it keeps is `[""]`, not the empty sequence.  The RBD variant, which
accepts the empty selector only, rejects the same object with `"vol_type":
"rbd"` and accepts it once "vol_id" is left out. -/
theorem C13_counterexample_empty_vol_id :
    strings.Split "" ':' = [""] ∧
    (strings.Split "" ':').length = 1 ∧
    PersistentVolumeSource.UnmarshalJSON Env.sample (PersistentVolumeSource.zero Env.sample)
        (JSON.obj [("vol_type", JSON.str "gce_pd"), ("vol_id", JSON.str "")]) =
      ({ PersistentVolumeSource.zero Env.sample with GcePD := some [""] }, none) ∧
    PersistentVolumeSource.Unmarshal Env.sample (PersistentVolumeSource.zero Env.sample)
        [("vol_type", JSON.str "gce_pd"), ("vol_id", JSON.str "")] "gce_pd" [] =
      ({ PersistentVolumeSource.zero Env.sample with GcePD := some [] }, none) ∧
    (some [""] : Option (List String)) ≠ some [] ∧
    (PersistentVolumeSource.UnmarshalJSON Env.sample (PersistentVolumeSource.zero Env.sample)
        (JSON.obj [("vol_type", JSON.str "rbd"), ("vol_id", JSON.str ""),
          ("monitors", JSON.null), ("image", JSON.str "img")])).2 =
      some (Error.InvalidValue "expected zero selector segments for rbd") ∧
    (PersistentVolumeSource.UnmarshalJSON Env.sample (PersistentVolumeSource.zero Env.sample)
        (JSON.obj [("vol_type", JSON.str "rbd"), ("monitors", JSON.null),
          ("image", JSON.str "img")])).2 = none :=
  ⟨by decide, by decide, rfl, rfl, by decide, by decide, by decide⟩

/-! ## Encoding the volume source -/

/-- The sixteen overwriting `if` statements leave the result of the last
variant that is set. -/
theorem PersistentVolumeSource.marshalVariants_eq_lastMarshal (E : Env)
    (v : PersistentVolumeSource E) :
    PersistentVolumeSource.marshalVariants E v = Spec.lastMarshal E v := by
  rfl

/-- Keeping only the last variant does not change which variant is last. -/
theorem Spec.lastMarshal_keepLast (E : Env) (v : PersistentVolumeSource E) :
    Spec.lastMarshal E (Spec.keepLast E v) = Spec.lastMarshal E v := by
  rcases v with ⟨f1, f2, f3, f4, f5, f6, f7, f8, f9, f10, f11, f12, f13, f14, f15, f16⟩
  cases f16 <;> try rfl
  cases f15 <;> try rfl
  cases f14 <;> try rfl
  cases f13 <;> try rfl
  cases f12 <;> try rfl
  cases f11 <;> try rfl
  cases f10 <;> try rfl
  cases f9 <;> try rfl
  cases f8 <;> try rfl
  cases f7 <;> try rfl
  cases f6 <;> try rfl
  cases f5 <;> try rfl
  cases f4 <;> try rfl
  cases f3 <;> try rfl
  cases f2 <;> rfl

/-- Keeping only the last variant of a source with at least one variant leaves
exactly one variant. -/
theorem Spec.variantCount_keepLast (E : Env) (v : PersistentVolumeSource E)
    (h : 1 ≤ Spec.variantCount E v) : Spec.variantCount E (Spec.keepLast E v) = 1 := by
  rcases v with ⟨f1, f2, f3, f4, f5, f6, f7, f8, f9, f10, f11, f12, f13, f14, f15, f16⟩
  cases f16 <;> try rfl
  cases f15 <;> try rfl
  cases f14 <;> try rfl
  cases f13 <;> try rfl
  cases f12 <;> try rfl
  cases f11 <;> try rfl
  cases f10 <;> try rfl
  cases f9 <;> try rfl
  cases f8 <;> try rfl
  cases f7 <;> try rfl
  cases f6 <;> try rfl
  cases f5 <;> try rfl
  cases f4 <;> try rfl
  cases f3 <;> try rfl
  cases f2 <;> try rfl
  cases f1
  · simp [Spec.variantCount, Spec.setFields] at h
  · rfl

/-- The outcome of `MarshalJSON` is a function of the result its sixteen `if`
statements leave. -/
theorem PersistentVolumeSource.MarshalJSON_of_last (E : Env) (v : PersistentVolumeSource E) :
    PersistentVolumeSource.MarshalJSON E v =
      match Spec.lastMarshal E v with
      | (_, some e) => (none, some e)
      | (none, none) => (none, some (Error.InvalidInstance "empty volume definition"))
      | (some marshalledVolume, none) =>
        (some (JSON.obj
          (if marshalledVolume.Selector.length > 0 then
            (marshalledVolume.ExtraFields.set "vol_type"
              (JSON.str marshalledVolume.Type_)).set "vol_id"
              (JSON.str (strings.Join marshalledVolume.Selector ":"))
          else
            marshalledVolume.ExtraFields.set "vol_type" (JSON.str marshalledVolume.Type_))),
          none) := by
  unfold PersistentVolumeSource.MarshalJSON
  rw [PersistentVolumeSource.marshalVariants_eq_lastMarshal]
  rcases Spec.lastMarshal E v with ⟨mv, err⟩
  cases mv with
  | none => cases err <;> rfl
  | some m =>
    cases err with
    | some e => rfl
    | none =>
      simp only [json.MarshalObj]

/-- A source that counts no variant is the zero value. -/
theorem Spec.eq_zero_of_variantCount (E : Env) (v : PersistentVolumeSource E)
    (h : Spec.variantCount E v = 0) : v = PersistentVolumeSource.zero E := by
  rcases v with ⟨f1, f2, f3, f4, f5, f6, f7, f8, f9, f10, f11, f12, f13, f14, f15, f16⟩
  have hn := List.count_eq_zero.1 h
  simp only [Spec.setFields, List.mem_cons, List.mem_singleton, List.not_mem_nil, or_false,
    not_or] at hn
  obtain ⟨h1, h2, h3, h4, h5, h6, h7, h8, h9, h10, h11, h12, h13, h14, h15, h16⟩ := hn
  have e : ∀ {α : Type} (o : Option α), ¬ true = o.isSome → o = none := by
    intro α o ho
    cases o with
    | none => rfl
    | some _ => exact absurd rfl ho
  rw [e f1 h1, e f2 h2, e f3 h3, e f4 h4, e f5 h5, e f6 h6, e f7 h7, e f8 h8, e f9 h9,
    e f10 h10, e f11 h11, e f12 h12, e f13 h13, e f14 h14, e f15 h15, e f16 h16]
  rfl

/-- C15: for every volume source in which all sixteen variant fields are
absent, `PersistentVolumeSource.MarshalJSON` returns no output and the error
"empty volume definition"; and `PersistentVolume.MarshalJSON` of a record with
such a source returns no output and an error, whatever its metadata. -/
theorem C15_empty_variant_encode_fails (E : Env) (m : PersistentVolumeMeta E)
    (v : PersistentVolumeSource E) (hv : Spec.variantCount E v = 0) :
    PersistentVolumeSource.MarshalJSON E v =
      (none, some (Error.InvalidInstance "empty volume definition")) ∧
    ∃ e, PersistentVolume.MarshalJSON E
        { PersistentVolumeMeta := m, PersistentVolumeSource := v } = (none, some e) := by
  rw [Spec.eq_zero_of_variantCount E v hv]
  refine ⟨rfl, ?_⟩
  unfold PersistentVolume.MarshalJSON
  simp only
  cases PersistentVolumeMeta.jsonMarshal E m with
  | error e => exact ⟨_, rfl⟩
  | ok b => exact ⟨_, rfl⟩

/-- C15 at the record of `Env.sample` with no variant set and no metadata. -/
theorem C15_empty_variant_encode_fails_witness :
    Spec.variantCount Env.sample (PersistentVolumeSource.zero Env.sample) = 0 ∧
    (PersistentVolumeSource.MarshalJSON Env.sample (PersistentVolumeSource.zero Env.sample) =
        (none, some (Error.InvalidInstance "empty volume definition")) ∧
      ∃ e, PersistentVolume.MarshalJSON Env.sample
          { PersistentVolumeMeta := PersistentVolumeMeta.zero Env.sample,
            PersistentVolumeSource := PersistentVolumeSource.zero Env.sample } =
        (none, some e)) :=
  ⟨rfl,
    C15_empty_variant_encode_fails Env.sample (PersistentVolumeMeta.zero Env.sample)
      (PersistentVolumeSource.zero Env.sample) rfl⟩

/-- C16 (amended): having two or more variant fields non-absent is not an
error.  For every such volume source `MarshalJSON` returns an error exactly
when the `Marshal` of the last non-absent variant, in declaration order, fails
(returns an error, or no volume); and when that `Marshal` returns a volume and
no error, `MarshalJSON` returns an encoded object. -/
theorem C16_multi_variant_encode_uses_last (E : Env) (v : PersistentVolumeSource E)
    (hv : 2 ≤ Spec.variantCount E v) :
    ((∃ e, (PersistentVolumeSource.MarshalJSON E v).2 = some e) ↔
      ((Spec.lastMarshal E v).2 ≠ none ∨ (Spec.lastMarshal E v).1 = none)) ∧
    (∀ marshalledVolume, Spec.lastMarshal E v = (some marshalledVolume, none) →
      ∃ out, PersistentVolumeSource.MarshalJSON E v = (some (JSON.obj out), none)) := by
  have _ := hv
  rw [PersistentVolumeSource.MarshalJSON_of_last]
  rcases Spec.lastMarshal E v with ⟨mv, err⟩
  cases mv with
  | none =>
    cases err with
    | none => exact ⟨⟨fun _ => Or.inr rfl, fun _ => ⟨_, rfl⟩⟩, fun _ h => by simp at h⟩
    | some e => exact ⟨⟨fun _ => Or.inr rfl, fun _ => ⟨_, rfl⟩⟩, fun _ h => by simp at h⟩
  | some m =>
    cases err with
    | none =>
      refine ⟨⟨fun h => ?_, fun h => ?_⟩, fun _ _ => ⟨_, rfl⟩⟩
      · rcases h with ⟨e, he⟩
        simp at he
      · rcases h with h | h
        · exact absurd rfl h
        · simp at h
    | some e =>
      exact ⟨⟨fun _ => Or.inl (by simp), fun _ => ⟨_, rfl⟩⟩, fun _ h => by simp at h⟩

/-- C16 (amended) at `twoVariants`, where GcePD and RBD are both set. -/
theorem C16_multi_variant_encode_uses_last_witness :
    2 ≤ Spec.variantCount Env.sample twoVariants ∧
    (((∃ e, (PersistentVolumeSource.MarshalJSON Env.sample twoVariants).2 = some e) ↔
        ((Spec.lastMarshal Env.sample twoVariants).2 ≠ none ∨
          (Spec.lastMarshal Env.sample twoVariants).1 = none)) ∧
      (∀ marshalledVolume,
        Spec.lastMarshal Env.sample twoVariants = (some marshalledVolume, none) →
        ∃ out, PersistentVolumeSource.MarshalJSON Env.sample twoVariants =
          (some (JSON.obj out), none))) :=
  ⟨by decide, C16_multi_variant_encode_uses_last Env.sample twoVariants (by decide)⟩

/-- C16 as stated fails at `twoVariants`: two variant fields are non-absent,
and `MarshalJSON` returns no error but the encoded object of the RBD volume. -/
theorem C16_counterexample_two_variants_encode :
    Spec.variantCount Env.sample twoVariants = 2 ∧
    PersistentVolumeSource.MarshalJSON Env.sample twoVariants =
      (some (JSON.obj [("monitors", JSON.arr [JSON.str "10.0.0.1:6789"]),
        ("image", JSON.str "img"), ("vol_type", JSON.str "rbd")]), none) :=
  ⟨by decide, rfl⟩

/-- C19: for every volume source with at least one variant field non-absent,
the source that keeps only the last non-absent variant field (GcePD first, RBD
last) has exactly one variant, and `MarshalJSON` returns for the whole source
exactly what it returns for that one: the same error or the same object.  The
variants before the last, their `Marshal` results included, do not enter. -/
theorem C19_last_variant_wins (E : Env) (v : PersistentVolumeSource E)
    (hv : 1 ≤ Spec.variantCount E v) :
    Spec.variantCount E (Spec.keepLast E v) = 1 ∧
    PersistentVolumeSource.MarshalJSON E v =
      PersistentVolumeSource.MarshalJSON E (Spec.keepLast E v) := by
  refine ⟨Spec.variantCount_keepLast E v hv, ?_⟩
  rw [PersistentVolumeSource.MarshalJSON_of_last, PersistentVolumeSource.MarshalJSON_of_last,
    Spec.lastMarshal_keepLast]

/-- C19 at `twoVariantsFirstFailing`: the `Marshal` of GcePD, the earlier
variant, fails, and the encoding is that of the RBD volume alone. -/
theorem C19_last_variant_wins_witness :
    1 ≤ Spec.variantCount Env.failingGcePD twoVariantsFirstFailing ∧
    (Spec.variantCount Env.failingGcePD
        (Spec.keepLast Env.failingGcePD twoVariantsFirstFailing) = 1 ∧
      PersistentVolumeSource.MarshalJSON Env.failingGcePD twoVariantsFirstFailing =
        PersistentVolumeSource.MarshalJSON Env.failingGcePD
          (Spec.keepLast Env.failingGcePD twoVariantsFirstFailing)) :=
  ⟨by decide, C19_last_variant_wins Env.failingGcePD twoVariantsFirstFailing (by decide)⟩

/-- The encoding of `twoVariantsFirstFailing` in full: the object of the RBD
volume, although `Marshal` of the GcePD volume returns an error. -/
theorem MarshalJSON_twoVariantsFirstFailing :
    Env.failingGcePD.GcePDVolume.Marshal () =
      (none, some (Error.InvalidInstance "cannot marshal")) ∧
    PersistentVolumeSource.MarshalJSON Env.failingGcePD twoVariantsFirstFailing =
      (some (JSON.obj [("monitors", JSON.arr [JSON.str "10.0.0.1:6789"]),
        ("image", JSON.str "img"), ("vol_type", JSON.str "rbd")]), none) :=
  ⟨rfl, rfl⟩

/-! ## What `Unmarshal` leaves in the receiver -/

/-- The shape of every result of `Unmarshal`: the receiver with the field of the
tag replaced, and for an unknown tag the receiver itself with the invalid-value
error. -/
theorem PersistentVolumeSource.Unmarshal_shape (E : Env) (v : PersistentVolumeSource E)
    (obj : Obj) (tag : String) (selector : List String) :
    Spec.ReplacesTagField E v (PersistentVolumeSource.Unmarshal E v obj tag selector).1 tag ∧
    (tag ∉ Spec.tags E →
      PersistentVolumeSource.Unmarshal E v obj tag selector =
        (v, some (Error.InvalidValue ("unsupported volume type (" ++ tag ++ ")")))) := by
  unfold PersistentVolumeSource.Unmarshal Spec.ReplacesTagField
  by_cases h1 : tag = E.VolumeTypeGcePD
  · rw [if_pos h1]
    refine ⟨?_, fun hn => absurd (by simp [Spec.tags, h1]) hn⟩
    iterate 1 right
    exact Or.inl ⟨h1, _, rfl⟩
  by_cases h2 : tag = E.VolumeTypeAwsEBS
  · rw [if_neg h1, if_pos h2]
    refine ⟨?_, fun hn => absurd (by simp [Spec.tags, h2]) hn⟩
    iterate 2 right
    exact Or.inl ⟨h2, _, rfl⟩
  by_cases h3 : tag = E.VolumeTypeHostPath
  · rw [if_neg h1, if_neg h2, if_pos h3]
    refine ⟨?_, fun hn => absurd (by simp [Spec.tags, h3]) hn⟩
    iterate 3 right
    exact Or.inl ⟨h3, _, rfl⟩
  by_cases h4 : tag = E.VolumeTypeGlusterfs
  · rw [if_neg h1, if_neg h2, if_neg h3, if_pos h4]
    refine ⟨?_, fun hn => absurd (by simp [Spec.tags, h4]) hn⟩
    iterate 4 right
    exact Or.inl ⟨h4, _, rfl⟩
  by_cases h5 : tag = E.VolumeTypeNFS
  · rw [if_neg h1, if_neg h2, if_neg h3, if_neg h4, if_pos h5]
    refine ⟨?_, fun hn => absurd (by simp [Spec.tags, h5]) hn⟩
    iterate 5 right
    exact Or.inl ⟨h5, _, rfl⟩
  by_cases h6 : tag = E.VolumeTypeISCSI
  · rw [if_neg h1, if_neg h2, if_neg h3, if_neg h4, if_neg h5, if_pos h6]
    refine ⟨?_, fun hn => absurd (by simp [Spec.tags, h6]) hn⟩
    iterate 6 right
    exact Or.inl ⟨h6, _, rfl⟩
  by_cases h7 : tag = E.VolumeTypeCinder
  · rw [if_neg h1, if_neg h2, if_neg h3, if_neg h4, if_neg h5, if_neg h6, if_pos h7]
    refine ⟨?_, fun hn => absurd (by simp [Spec.tags, h7]) hn⟩
    iterate 7 right
    exact Or.inl ⟨h7, _, rfl⟩
  by_cases h8 : tag = E.VolumeTypeFibreChannel
  · rw [if_neg h1, if_neg h2, if_neg h3, if_neg h4, if_neg h5, if_neg h6, if_neg h7, if_pos h8]
    refine ⟨?_, fun hn => absurd (by simp [Spec.tags, h8]) hn⟩
    iterate 8 right
    exact Or.inl ⟨h8, _, rfl⟩
  by_cases h9 : tag = E.VolumeTypeFlocker
  · rw [if_neg h1, if_neg h2, if_neg h3, if_neg h4, if_neg h5, if_neg h6, if_neg h7, if_neg h8,
        if_pos h9]
    refine ⟨?_, fun hn => absurd (by simp [Spec.tags, h9]) hn⟩
    iterate 9 right
    exact Or.inl ⟨h9, _, rfl⟩
  by_cases h10 : tag = E.VolumeTypeFlex
  · rw [if_neg h1, if_neg h2, if_neg h3, if_neg h4, if_neg h5, if_neg h6, if_neg h7, if_neg h8,
        if_neg h9, if_pos h10]
    refine ⟨?_, fun hn => absurd (by simp [Spec.tags, h10]) hn⟩
    iterate 10 right
    exact Or.inl ⟨h10, _, rfl⟩
  by_cases h11 : tag = E.VolumeTypeVsphere
  · rw [if_neg h1, if_neg h2, if_neg h3, if_neg h4, if_neg h5, if_neg h6, if_neg h7, if_neg h8,
        if_neg h9, if_neg h10, if_pos h11]
    refine ⟨?_, fun hn => absurd (by simp [Spec.tags, h11]) hn⟩
    iterate 11 right
    exact Or.inl ⟨h11, _, rfl⟩
  by_cases h12 : tag = E.VolumeTypeQuobyte
  · rw [if_neg h1, if_neg h2, if_neg h3, if_neg h4, if_neg h5, if_neg h6, if_neg h7, if_neg h8,
        if_neg h9, if_neg h10, if_neg h11, if_pos h12]
    refine ⟨?_, fun hn => absurd (by simp [Spec.tags, h12]) hn⟩
    iterate 12 right
    exact Or.inl ⟨h12, _, rfl⟩
  by_cases h13 : tag = E.VolumeTypeAzureDisk
  · rw [if_neg h1, if_neg h2, if_neg h3, if_neg h4, if_neg h5, if_neg h6, if_neg h7, if_neg h8,
        if_neg h9, if_neg h10, if_neg h11, if_neg h12, if_pos h13]
    refine ⟨?_, fun hn => absurd (by simp [Spec.tags, h13]) hn⟩
    iterate 13 right
    exact Or.inl ⟨h13, _, rfl⟩
  by_cases h14 : tag = E.VolumeTypePhotonPD
  · rw [if_neg h1, if_neg h2, if_neg h3, if_neg h4, if_neg h5, if_neg h6, if_neg h7, if_neg h8,
        if_neg h9, if_neg h10, if_neg h11, if_neg h12, if_neg h13, if_pos h14]
    refine ⟨?_, fun hn => absurd (by simp [Spec.tags, h14]) hn⟩
    iterate 14 right
    exact Or.inl ⟨h14, _, rfl⟩
  by_cases h15 : tag = E.VolumeTypePortworx
  · rw [if_neg h1, if_neg h2, if_neg h3, if_neg h4, if_neg h5, if_neg h6, if_neg h7, if_neg h8,
        if_neg h9, if_neg h10, if_neg h11, if_neg h12, if_neg h13, if_neg h14, if_pos h15]
    refine ⟨?_, fun hn => absurd (by simp [Spec.tags, h15]) hn⟩
    iterate 15 right
    exact Or.inl ⟨h15, _, rfl⟩
  by_cases h16 : tag = VolumeTypeRBD
  · rw [if_neg h1, if_neg h2, if_neg h3, if_neg h4, if_neg h5, if_neg h6, if_neg h7, if_neg h8,
        if_neg h9, if_neg h10, if_neg h11, if_neg h12, if_neg h13, if_neg h14, if_neg h15,
        if_pos h16]
    refine ⟨?_, fun hn => absurd (by simp [Spec.tags, h16]) hn⟩
    iterate 16 right
    exact ⟨h16, _, rfl⟩
  rw [if_neg h1, if_neg h2, if_neg h3, if_neg h4, if_neg h5, if_neg h6, if_neg h7, if_neg h8,
      if_neg h9, if_neg h10, if_neg h11, if_neg h12, if_neg h13, if_neg h14, if_neg h15,
      if_neg h16]
  have hn : tag ∉ Spec.tags E := by
    simp [Spec.tags, h1, h2, h3, h4, h5, h6, h7, h8, h9, h10, h11, h12, h13, h14, h15, h16]
  exact ⟨Or.inl ⟨hn, rfl⟩, fun _ => rfl⟩

/-- C17: for every flat object, tag and selector, if `Unmarshal` returns no
error on a volume source that had no variant set, then afterwards exactly one
of the sixteen variant fields is non-absent, and the field that corresponds to
the tag is non-absent. -/
theorem C17_exactly_one_variant_after_decode (E : Env) (obj : Obj) (tag : String)
    (selector : List String) (v' : PersistentVolumeSource E)
    (h : PersistentVolumeSource.Unmarshal E (PersistentVolumeSource.zero E) obj tag selector =
      (v', none)) :
    Spec.variantCount E v' = 1 ∧ Spec.TagFieldSet E v' tag := by
  have hs := PersistentVolumeSource.Unmarshal_shape E (PersistentVolumeSource.zero E) obj tag
    selector
  rw [h] at hs
  obtain ⟨hshape, hunknown⟩ := hs
  unfold Spec.ReplacesTagField at hshape
  unfold Spec.TagFieldSet
  rcases hshape with ⟨hn, _⟩ | hshape
  · have := congrArg Prod.snd (hunknown hn)
    simp at this
  rcases hshape with
    ⟨ht, x, hx⟩ | ⟨ht, x, hx⟩ | ⟨ht, x, hx⟩ | ⟨ht, x, hx⟩ |
    ⟨ht, x, hx⟩ | ⟨ht, x, hx⟩ | ⟨ht, x, hx⟩ | ⟨ht, x, hx⟩ |
    ⟨ht, x, hx⟩ | ⟨ht, x, hx⟩ | ⟨ht, x, hx⟩ | ⟨ht, x, hx⟩ |
    ⟨ht, x, hx⟩ | ⟨ht, x, hx⟩ | ⟨ht, x, hx⟩ | ⟨ht, x, hx⟩
  · subst hx
    refine ⟨rfl, ?_⟩
    exact Or.inl ⟨ht, rfl⟩
  · subst hx
    refine ⟨rfl, ?_⟩
    iterate 1 right
    exact Or.inl ⟨ht, rfl⟩
  · subst hx
    refine ⟨rfl, ?_⟩
    iterate 2 right
    exact Or.inl ⟨ht, rfl⟩
  · subst hx
    refine ⟨rfl, ?_⟩
    iterate 3 right
    exact Or.inl ⟨ht, rfl⟩
  · subst hx
    refine ⟨rfl, ?_⟩
    iterate 4 right
    exact Or.inl ⟨ht, rfl⟩
  · subst hx
    refine ⟨rfl, ?_⟩
    iterate 5 right
    exact Or.inl ⟨ht, rfl⟩
  · subst hx
    refine ⟨rfl, ?_⟩
    iterate 6 right
    exact Or.inl ⟨ht, rfl⟩
  · subst hx
    refine ⟨rfl, ?_⟩
    iterate 7 right
    exact Or.inl ⟨ht, rfl⟩
  · subst hx
    refine ⟨rfl, ?_⟩
    iterate 8 right
    exact Or.inl ⟨ht, rfl⟩
  · subst hx
    refine ⟨rfl, ?_⟩
    iterate 9 right
    exact Or.inl ⟨ht, rfl⟩
  · subst hx
    refine ⟨rfl, ?_⟩
    iterate 10 right
    exact Or.inl ⟨ht, rfl⟩
  · subst hx
    refine ⟨rfl, ?_⟩
    iterate 11 right
    exact Or.inl ⟨ht, rfl⟩
  · subst hx
    refine ⟨rfl, ?_⟩
    iterate 12 right
    exact Or.inl ⟨ht, rfl⟩
  · subst hx
    refine ⟨rfl, ?_⟩
    iterate 13 right
    exact Or.inl ⟨ht, rfl⟩
  · subst hx
    refine ⟨rfl, ?_⟩
    iterate 14 right
    exact Or.inl ⟨ht, rfl⟩
  · subst hx
    refine ⟨rfl, ?_⟩
    iterate 15 right
    exact ⟨ht, rfl⟩

/-- C17 at the tag "gce_pd", the selector `["disk"]` and the instance
`Env.sample`. -/
theorem C17_exactly_one_variant_after_decode_witness :
    PersistentVolumeSource.Unmarshal Env.sample (PersistentVolumeSource.zero Env.sample)
        [("vol_type", JSON.str "gce_pd")] "gce_pd" ["disk"] =
      ({ PersistentVolumeSource.zero Env.sample with GcePD := some ["disk"] }, none) ∧
    (Spec.variantCount Env.sample
        { PersistentVolumeSource.zero Env.sample with GcePD := some ["disk"] } = 1 ∧
      Spec.TagFieldSet Env.sample
        { PersistentVolumeSource.zero Env.sample with GcePD := some ["disk"] } "gce_pd") :=
  ⟨rfl,
    C17_exactly_one_variant_after_decode Env.sample [("vol_type", JSON.str "gce_pd")] "gce_pd"
      ["disk"] _ rfl⟩

/-- What `Unmarshal` leaves in the receiver, with the content of the field of
the tag: the new volume, as the variant's decoder left it. -/
theorem PersistentVolumeSource.Unmarshal_stores (E : Env) (v : PersistentVolumeSource E)
    (obj : Obj) (tag : String) (selector : List String) :
    Spec.StoresNewVolume E v (PersistentVolumeSource.Unmarshal E v obj tag selector).1 obj tag
      selector := by
  unfold PersistentVolumeSource.Unmarshal Spec.StoresNewVolume
  by_cases h1 : tag = E.VolumeTypeGcePD
  · rw [if_pos h1]
    iterate 1 right
    exact Or.inl ⟨h1, rfl⟩
  by_cases h2 : tag = E.VolumeTypeAwsEBS
  · rw [if_neg h1, if_pos h2]
    iterate 2 right
    exact Or.inl ⟨h2, rfl⟩
  by_cases h3 : tag = E.VolumeTypeHostPath
  · rw [if_neg h1, if_neg h2, if_pos h3]
    iterate 3 right
    exact Or.inl ⟨h3, rfl⟩
  by_cases h4 : tag = E.VolumeTypeGlusterfs
  · rw [if_neg h1, if_neg h2, if_neg h3, if_pos h4]
    iterate 4 right
    exact Or.inl ⟨h4, rfl⟩
  by_cases h5 : tag = E.VolumeTypeNFS
  · rw [if_neg h1, if_neg h2, if_neg h3, if_neg h4, if_pos h5]
    iterate 5 right
    exact Or.inl ⟨h5, rfl⟩
  by_cases h6 : tag = E.VolumeTypeISCSI
  · rw [if_neg h1, if_neg h2, if_neg h3, if_neg h4, if_neg h5, if_pos h6]
    iterate 6 right
    exact Or.inl ⟨h6, rfl⟩
  by_cases h7 : tag = E.VolumeTypeCinder
  · rw [if_neg h1, if_neg h2, if_neg h3, if_neg h4, if_neg h5, if_neg h6, if_pos h7]
    iterate 7 right
    exact Or.inl ⟨h7, rfl⟩
  by_cases h8 : tag = E.VolumeTypeFibreChannel
  · rw [if_neg h1, if_neg h2, if_neg h3, if_neg h4, if_neg h5, if_neg h6, if_neg h7, if_pos h8]
    iterate 8 right
    exact Or.inl ⟨h8, rfl⟩
  by_cases h9 : tag = E.VolumeTypeFlocker
  · rw [if_neg h1, if_neg h2, if_neg h3, if_neg h4, if_neg h5, if_neg h6, if_neg h7, if_neg h8, if_pos h9]
    iterate 9 right
    exact Or.inl ⟨h9, rfl⟩
  by_cases h10 : tag = E.VolumeTypeFlex
  · rw [if_neg h1, if_neg h2, if_neg h3, if_neg h4, if_neg h5, if_neg h6, if_neg h7, if_neg h8, if_neg h9, if_pos h10]
    iterate 10 right
    exact Or.inl ⟨h10, rfl⟩
  by_cases h11 : tag = E.VolumeTypeVsphere
  · rw [if_neg h1, if_neg h2, if_neg h3, if_neg h4, if_neg h5, if_neg h6, if_neg h7, if_neg h8, if_neg h9, if_neg h10, if_pos h11]
    iterate 11 right
    exact Or.inl ⟨h11, rfl⟩
  by_cases h12 : tag = E.VolumeTypeQuobyte
  · rw [if_neg h1, if_neg h2, if_neg h3, if_neg h4, if_neg h5, if_neg h6, if_neg h7, if_neg h8, if_neg h9, if_neg h10, if_neg h11, if_pos h12]
    iterate 12 right
    exact Or.inl ⟨h12, rfl⟩
  by_cases h13 : tag = E.VolumeTypeAzureDisk
  · rw [if_neg h1, if_neg h2, if_neg h3, if_neg h4, if_neg h5, if_neg h6, if_neg h7, if_neg h8, if_neg h9, if_neg h10, if_neg h11, if_neg h12, if_pos h13]
    iterate 13 right
    exact Or.inl ⟨h13, rfl⟩
  by_cases h14 : tag = E.VolumeTypePhotonPD
  · rw [if_neg h1, if_neg h2, if_neg h3, if_neg h4, if_neg h5, if_neg h6, if_neg h7, if_neg h8, if_neg h9, if_neg h10, if_neg h11, if_neg h12, if_neg h13, if_pos h14]
    iterate 14 right
    exact Or.inl ⟨h14, rfl⟩
  by_cases h15 : tag = E.VolumeTypePortworx
  · rw [if_neg h1, if_neg h2, if_neg h3, if_neg h4, if_neg h5, if_neg h6, if_neg h7, if_neg h8, if_neg h9, if_neg h10, if_neg h11, if_neg h12, if_neg h13, if_neg h14, if_pos h15]
    iterate 15 right
    exact Or.inl ⟨h15, rfl⟩
  by_cases h16 : tag = VolumeTypeRBD
  · rw [if_neg h1, if_neg h2, if_neg h3, if_neg h4, if_neg h5, if_neg h6, if_neg h7, if_neg h8, if_neg h9, if_neg h10, if_neg h11, if_neg h12, if_neg h13, if_neg h14, if_neg h15, if_pos h16]
    iterate 16 right
    exact ⟨h16, rfl⟩
  rw [if_neg h1, if_neg h2, if_neg h3, if_neg h4, if_neg h5, if_neg h6, if_neg h7, if_neg h8, if_neg h9, if_neg h10, if_neg h11, if_neg h12, if_neg h13, if_neg h14, if_neg h15, if_neg h16]
  have hn : tag ∉ Spec.tags E := by
    simp [Spec.tags, h1, h2, h3, h4, h5, h6, h7, h8, h9, h10, h11, h12, h13, h14, h15, h16]
  exact Or.inl ⟨hn, rfl⟩

/-- C18 (amended): for every source value, flat object, tag and selector,
whenever `Unmarshal` returns an error, every variant field other than the one
that corresponds to the tag is as it was before the call, and that one field,
whatever it held before, holds the new zero-valued volume the case stored, as
the variant's decoder left it; for a tag that is none of the sixteen no field
changes. -/
theorem C18_failed_decode_replaces_tag_field (E : Env) (v : PersistentVolumeSource E)
    (obj : Obj) (tag : String) (selector : List String)
    (herr : (PersistentVolumeSource.Unmarshal E v obj tag selector).2 ≠ none) :
    Spec.StoresNewVolume E v (PersistentVolumeSource.Unmarshal E v obj tag selector).1 obj tag
      selector := by
  have _ := herr
  exact PersistentVolumeSource.Unmarshal_stores E v obj tag selector

/-- C18 (amended) at the tag "rbd", the selector `["x"]`, the source
`sourceWithRBD`, whose RBD field holds a volume before the call, and the
instance `Env.sample`. -/
theorem C18_failed_decode_replaces_tag_field_witness :
    (PersistentVolumeSource.Unmarshal Env.sample sourceWithRBD [] "rbd" ["x"]).2 ≠ none ∧
    Spec.StoresNewVolume Env.sample sourceWithRBD
      (PersistentVolumeSource.Unmarshal Env.sample sourceWithRBD [] "rbd" ["x"]).1 [] "rbd"
      ["x"] :=
  ⟨by decide,
    C18_failed_decode_replaces_tag_field Env.sample sourceWithRBD [] "rbd" ["x"] (by decide)⟩

/-- The failed decode of the tag "rbd" with the selector `["x"]` into
`sourceWithRBD` replaces the volume the RBD field held by a zero-valued one;
the source left unchanged is not what `Spec.StoresNewVolume` describes. -/
theorem PersistentVolumeSource.Unmarshal_sourceWithRBD :
    PersistentVolumeSource.Unmarshal Env.sample sourceWithRBD [] "rbd" ["x"] =
      ({ sourceWithRBD with RBD := some RBDPersistentVolume.zero },
        some (Error.InvalidValue "expected zero selector segments for rbd")) ∧
    ¬ Spec.StoresNewVolume Env.sample sourceWithRBD sourceWithRBD [] "rbd" ["x"] := by
  refine ⟨rfl, ?_⟩
  unfold Spec.StoresNewVolume
  have htag : "rbd" ∈ Spec.tags Env.sample := by decide
  rintro (h | h | h | h | h | h | h | h | h | h | h | h | h | h | h | h | h)
  · exact h.1 htag
  all_goals first
    | exact absurd h.1 (by decide)
    | exact absurd (congrArg PersistentVolumeSource.RBD h.2) (by decide)

/-- C18 as stated fails at the tag "rbd" with the selector `["x"]` on a source
with no variant set: `Unmarshal` returns the selector error, and the RBD field,
absent before the call, holds a zero-valued volume after it. -/
theorem C18_counterexample_failed_decode_sets_field :
    (PersistentVolumeSource.zero Env.sample).RBD = none ∧
    PersistentVolumeSource.Unmarshal Env.sample (PersistentVolumeSource.zero Env.sample) []
        "rbd" ["x"] =
      ({ PersistentVolumeSource.zero Env.sample with RBD := some RBDPersistentVolume.zero },
        some (Error.InvalidValue "expected zero selector segments for rbd")) ∧
    (PersistentVolumeSource.Unmarshal Env.sample (PersistentVolumeSource.zero Env.sample) []
        "rbd" ["x"]).1.RBD ≠ (PersistentVolumeSource.zero Env.sample).RBD :=
  ⟨rfl, rfl, by decide⟩

/-! ## Merging the metadata into the variant's flat object -/

namespace Obj

/-- Reading a map after an assignment. -/
theorem get_set (o : Obj) (k : String) (val : JSON) (k' : String) :
    get (set o k val) k' = if k = k' then some val else get o k' := by
  induction o with
  | nil => simp [set, get]
  | cons kv rest ih =>
    rcases kv with ⟨k1, v1⟩
    unfold set
    by_cases h1 : k1 = k
    · subst h1
      by_cases h2 : k1 = k' <;> simp [get, h2]
    · rw [if_neg h1]
      by_cases h2 : k1 = k'
      · subst h2
        simp [get, Ne.symm h1]
      · simp [get, h2, ih]

theorem get_eq_none_of_not_mem (o : Obj) (k : String) (h : k ∉ o.map Prod.fst) :
    get o k = none := by
  induction o with
  | nil => rfl
  | cons kv rest ih =>
    rcases kv with ⟨k1, v1⟩
    simp only [List.map_cons, List.mem_cons, not_or] at h
    simp [get, Ne.symm h.1, ih h.2]

theorem mem_keys_set (o : Obj) (k : String) (val : JSON) (k' : String) :
    k' ∈ (set o k val).map Prod.fst ↔ k' = k ∨ k' ∈ o.map Prod.fst := by
  induction o with
  | nil => simp [set]
  | cons kv rest ih =>
    rcases kv with ⟨k1, v1⟩
    unfold set
    by_cases h1 : k1 = k
    · subst h1
      simp
    · rw [if_neg h1]
      simp only [List.map_cons, List.mem_cons, ih]
      tauto

/-- Assignment keeps the keys of a map distinct. -/
theorem nodup_keys_set (o : Obj) (k : String) (val : JSON) (h : (o.map Prod.fst).Nodup) :
    ((set o k val).map Prod.fst).Nodup := by
  induction o with
  | nil => simp [set]
  | cons kv rest ih =>
    rcases kv with ⟨k1, v1⟩
    simp only [List.map_cons, List.nodup_cons] at h
    unfold set
    by_cases h1 : k1 = k
    · subst h1
      simpa using h
    · rw [if_neg h1]
      simp only [List.map_cons, List.nodup_cons]
      refine ⟨?_, ih h.2⟩
      rw [mem_keys_set]
      intro hc
      rcases hc with hc | hc
      · exact h1 hc
      · exact h.1 hc

theorem nodup_keys_foldl_set (ms : List (String × JSON)) :
    ∀ o : Obj, (o.map Prod.fst).Nodup →
      ((ms.foldl (fun o kv => o.set kv.1 kv.2) o).map Prod.fst).Nodup := by
  induction ms with
  | nil => intro o h; exact h
  | cons kv rest ih =>
    intro o h
    exact ih _ (nodup_keys_set o kv.1 kv.2 h)

/-- Storing every entry of a map with distinct keys into another map: an entry
of the first map wins, and a key the first map lacks keeps its old entry. -/
theorem get_foldl_set (m : Obj) (hm : (m.map Prod.fst).Nodup) :
    ∀ (o : Obj) (k : String),
      get (m.foldl (fun o kv => o.set kv.1 kv.2) o) k =
        match get m k with
        | some val => some val
        | none => get o k := by
  induction m with
  | nil => intro o k; rfl
  | cons kv rest ih =>
    intro o k
    rcases kv with ⟨k1, v1⟩
    simp only [List.map_cons, List.nodup_cons] at hm
    simp only [List.foldl_cons]
    rw [ih hm.2, get_set]
    by_cases h1 : k1 = k
    · subst h1
      simp [get, get_eq_none_of_not_mem rest k1 hm.1]
    · simp [get, h1]

end Obj

/-- The map `json.Unmarshal` fills from nothing has distinct keys. -/
theorem json.nodup_keys_of_UnmarshalObj (data : JSON) (obj : Obj)
    (h : json.UnmarshalObj data [] = Except.ok obj) : (obj.map Prod.fst).Nodup := by
  unfold json.UnmarshalObj at h
  cases data with
  | obj members =>
    simp only [Except.ok.injEq] at h
    subst h
    exact Obj.nodup_keys_foldl_set members [] (by simp)
  | null =>
    simp only [Except.ok.injEq] at h
    subst h
    simp
  | bool _ => simp at h
  | num _ => simp at h
  | str _ => simp at h
  | arr _ => simp at h

/-- C14: in `PersistentVolume.MarshalJSON` the emitted flat object is the
variant's flat object overwritten by the metadata's flat object: for every key
the output holds the metadata's value when the metadata object has the key,
the variant's value when only the variant object has it, and no entry
otherwise; when both hold "storage_class" the output holds the metadata's
value. -/
theorem C14_merge_precedence (E : Env) (v : PersistentVolume E) (b bb : JSON)
    (metaObj sourceObj : Obj)
    (hb : PersistentVolumeMeta.jsonMarshal E v.PersistentVolumeMeta = Except.ok b)
    (hbb : PersistentVolumeSource.MarshalJSON E v.PersistentVolumeSource = (some bb, none))
    (hmeta : json.UnmarshalObj b [] = Except.ok metaObj)
    (hsource : json.UnmarshalObj bb [] = Except.ok sourceObj) :
    ∃ out : Obj, PersistentVolume.MarshalJSON E v = (some (JSON.obj out), none) ∧
      (∀ key, out.get key =
        match metaObj.get key with
        | some val => some val
        | none => sourceObj.get key) ∧
      (∀ A B, sourceObj.get "storage_class" = some A → metaObj.get "storage_class" = some B →
        out.get "storage_class" = some B) := by
  have hmerge := Obj.get_foldl_set metaObj (json.nodup_keys_of_UnmarshalObj b metaObj hmeta)
    sourceObj
  refine ⟨metaObj.foldl (fun (o : Obj) kv => o.set kv.1 kv.2) sourceObj, ?_, hmerge, ?_⟩
  · unfold PersistentVolume.MarshalJSON
    simp only [hb, hbb, json.ofMarshalJSON, hmeta, hsource, json.MarshalObj]
  · intro A B _ hB
    rw [hmerge, hB]

/-- C14 at `pvSharedKey`: the variant's object holds "storage_class": "slow",
the metadata's holds "storage_class": "fast", and the output holds "fast". -/
theorem C14_merge_precedence_witness :
    (PersistentVolumeMeta.jsonMarshal Env.flatGcePD pvSharedKey.PersistentVolumeMeta =
        Except.ok (JSON.obj [("name", JSON.str "pv"), ("storage_class", JSON.str "fast")]) ∧
      PersistentVolumeSource.MarshalJSON Env.flatGcePD pvSharedKey.PersistentVolumeSource =
        (some (JSON.obj [("storage_class", JSON.str "slow"), ("disk", JSON.str "d1"),
          ("vol_type", JSON.str "gce_pd")]), none) ∧
      json.UnmarshalObj
          (JSON.obj [("name", JSON.str "pv"), ("storage_class", JSON.str "fast")]) [] =
        Except.ok [("name", JSON.str "pv"), ("storage_class", JSON.str "fast")] ∧
      json.UnmarshalObj
          (JSON.obj [("storage_class", JSON.str "slow"), ("disk", JSON.str "d1"),
            ("vol_type", JSON.str "gce_pd")]) [] =
        Except.ok [("storage_class", JSON.str "slow"), ("disk", JSON.str "d1"),
          ("vol_type", JSON.str "gce_pd")]) ∧
    ∃ out : Obj, PersistentVolume.MarshalJSON Env.flatGcePD pvSharedKey =
        (some (JSON.obj out), none) ∧
      (∀ key, out.get key =
        match Obj.get [("name", JSON.str "pv"), ("storage_class", JSON.str "fast")] key with
        | some val => some val
        | none => Obj.get [("storage_class", JSON.str "slow"), ("disk", JSON.str "d1"),
            ("vol_type", JSON.str "gce_pd")] key) ∧
      (∀ A B,
        Obj.get [("storage_class", JSON.str "slow"), ("disk", JSON.str "d1"),
          ("vol_type", JSON.str "gce_pd")] "storage_class" = some A →
        Obj.get [("name", JSON.str "pv"), ("storage_class", JSON.str "fast")]
          "storage_class" = some B →
        out.get "storage_class" = some B) :=
  ⟨⟨rfl, rfl, rfl, rfl⟩, C14_merge_precedence Env.flatGcePD pvSharedKey _ _ _ _ rfl rfl rfl rfl⟩

/-- The output for `pvSharedKey` in full. -/
theorem MarshalJSON_pvSharedKey :
    PersistentVolume.MarshalJSON Env.flatGcePD pvSharedKey =
      (some (JSON.obj [("storage_class", JSON.str "fast"), ("disk", JSON.str "d1"),
        ("vol_type", JSON.str "gce_pd"), ("name", JSON.str "pv")]), none) :=
  rfl
